import Mathlib

/-!
Verification development for the sales-order processing core: field
normalization of raw extracted line items, aggregation of product-match
results, the JSON-file order store, and CSV serialization.

Python values are modelled by the inductive type `JVal`: ints and floats
are both exact rationals (`jNum`), `jNull` is Python `None`, `jTime` is an
opaque timestamp (one clock tick per `datetime.now()` call), and records
(Python dicts) are ordered association lists `List (String × JVal)` whose
lookup takes the first binding for a key. Fallible operations (statements
that can raise `TypeError`, `ValueError`, `KeyError`) return `Except`.
-/

inductive JVal where
  | jStr (s : String)
  | jNum (q : ℚ)
  | jNull
  | jTime (t : Nat)
  | jArr (xs : List JVal)
  | jObj (fields : List (String × JVal))

abbrev Record := List (String × JVal)

def kRequestItem : String := "Request Item"
def kItemDescription : String := "Item Description"
def kDescription : String := "Description"
def kQuantity : String := "Quantity"
def kQty : String := "Qty"
def kUnitPrice : String := "Unit Price"
def kPrice : String := "Price"
def kUnitCost : String := "Unit Cost"
def kTotal : String := "Total"
def kAmount : String := "Amount"
def kMatchedItem : String := "matched_item"
def kMatchScore : String := "match_score"
def kAlternateMatches : String := "alternate_matches"
def kMatch : String := "match"
def kScore : String := "score"
def kId : String := "_id"
def kFileName : String := "file_name"
def kLineItems : String := "line_items"
def kCreatedAt : String := "created_at"
def kUpdatedAt : String := "updated_at"
def kStatus : String := "status"

/-- Python dict lookup `d.get(k)` / `k in d`: first binding for the key. -/
def find {α : Type} : List (String × α) → String → Option α
  | [], _ => none
  | kv :: rest, k => if kv.1 = k then some kv.2 else find rest k

/-- Python dict assignment `d[k] = v`: replace the binding in place if the
key exists, otherwise append a new binding at the end. -/
def setKey {α : Type} : List (String × α) → String → α → List (String × α)
  | [], k, v => [(k, v)]
  | kv :: rest, k, v => if kv.1 = k then (k, v) :: rest else kv :: setKey rest k v

/-- `for key, value in updates.items(): d[key] = value` -/
def applyUpdates {α : Type} (r : List (String × α)) (upd : List (String × α)) : List (String × α) :=
  upd.foldl (fun acc kv => setKey acc kv.1 kv.2) r

def isWs (c : Char) : Bool := c == ' ' || c == '\t' || c == '\n' || c == '\r'

def digitsVal (cs : List Char) : Nat := cs.foldl (fun n c => n * 10 + (c.toNat - 48)) 0

/-- Body of Python float() string parsing: decimal digits with an optional
fractional part. Scientific exponents, inf/nan and underscore separators are
not modelled; no verified claim depends on them. -/
def parseUnsignedFloat (cs : List Char) : Option ℚ :=
  let ip := cs.takeWhile Char.isDigit
  let rest := cs.dropWhile Char.isDigit
  match rest with
  | [] => if ip.isEmpty then none else some ((digitsVal ip : ℚ))
  | c :: frac =>
    if c == '.' && frac.all Char.isDigit && !(ip.isEmpty && frac.isEmpty) then
      some ((digitsVal ip : ℚ) + (digitsVal frac : ℚ) / ((10 : ℚ) ^ frac.length))
    else none

/-- Python float() on a string: strip surrounding whitespace, optional sign,
then a decimal literal. -/
def parseFloatStr (s : String) : Option ℚ :=
  let cs := ((s.data.dropWhile isWs).reverse.dropWhile isWs).reverse
  match cs with
  | c :: rest =>
    if c == '-' then (parseUnsignedFloat rest).map (fun q => -q)
    else if c == '+' then parseUnsignedFloat rest
    else parseUnsignedFloat cs
  | [] => none

/-- Python float(x): ints and floats coerce, numeric strings parse,
everything else raises (`TypeError`/`ValueError`), modelled as `.error ()`. -/
def pyFloat : JVal → Except Unit ℚ
  | .jNum q => .ok q
  | .jStr s =>
    match parseFloatStr s with
    | some q => .ok q
    | none => .error ()
  | _ => .error ()

/-- Python comparison `x > v` where `x` is already known to be an int or
float: numeric comparison against another number, `TypeError` against
anything else (None, strings, lists, dicts, datetimes). -/
def numGtVal (x : ℚ) : JVal → Except Unit Bool
  | .jNum y => .ok (decide (y < x))
  | _ => .error ()

/-- llm_utils.normalize_fields_manually lines 99-104: description synonyms,
first match wins. -/
def resolveRI (item : Record) : Option JVal :=
  match find item kRequestItem with
  | some v => some v
  | none =>
    match find item kItemDescription with
    | some v => some v
    | none => find item kDescription

/-- Lines 107-110: Quantity synonyms. -/
def resolvedQty (item : Record) : Option JVal :=
  match find item kQuantity with
  | some v => some v
  | none => find item kQty

/-- Lines 113-118: Unit Price synonyms. -/
def resolvedUP (item : Record) : Option JVal :=
  match find item kUnitPrice with
  | some v => some v
  | none =>
    match find item kPrice with
    | some v => some v
    | none => find item kUnitCost

/-- Lines 121-126: Total directly, else the Amount-as-Total heuristic.
The comparison `item["Amount"] > item["Quantity"]` is evaluated only when
`Amount` is an int/float, and raises `TypeError` when `Quantity` is not
numeric. -/
def totalResolve (item : Record) : Except Unit (Option JVal) :=
  match find item kTotal with
  | some v => .ok (some v)
  | none =>
    match find item kAmount with
    | none => .ok none
    | some a =>
      match find item kQuantity with
      | none => .ok none
      | some qv =>
        match a with
        | .jNum x =>
          match numGtVal x qv with
          | .ok true => .ok (some a)
          | .ok false => .ok none
          | .error e => .error e
        | _ => .ok none

/-- Insert an optional binding at the end (skip when absent). -/
def addOpt (r : Record) (k : String) (v : Option JVal) : Record :=
  match v with
  | some w => r ++ [(k, w)]
  | none => r

/-- The canonical-field record built by lines 96-126, given the resolved
Total. Insertion order: Request Item, Quantity, Unit Price, Total. -/
def resolvedRecord (item : Record) (tot : Option JVal) : Record :=
  addOpt (addOpt (addOpt (addOpt [] kRequestItem (resolveRI item)) kQuantity (resolvedQty item)) kUnitPrice (resolvedUP item)) kTotal tot

/-- Synonym-resolution stage (lines 96-126): raises exactly when the
Amount-as-Total comparison raises. -/
def resolveStage (item : Record) : Except Unit Record :=
  match totalResolve item with
  | .ok tot => .ok (resolvedRecord item tot)
  | .error e => .error e

/-- Lines 129-133: derive `Total = float(Quantity) * float(Unit Price)` when
Total is missing; TypeError/ValueError from the coercions is swallowed. -/
def deriveTotalStep (n : Record) : Record :=
  match find n kTotal with
  | some _ => n
  | none =>
    match find n kQuantity with
    | none => n
    | some qv =>
      match find n kUnitPrice with
      | none => n
      | some uv =>
        match pyFloat qv with
        | .error _ => n
        | .ok x =>
          match pyFloat uv with
          | .error _ => n
          | .ok y => n ++ [(kTotal, .jNum (x * y))]

/-- Lines 136-141: derive `Unit Price = float(Total) / float(Quantity)` when
Unit Price is missing and `float(Quantity) > 0`; TypeError/ValueError/
ZeroDivisionError is swallowed. -/
def deriveUPStep (n : Record) : Record :=
  match find n kUnitPrice with
  | some _ => n
  | none =>
    match find n kQuantity with
    | none => n
    | some qv =>
      match find n kTotal with
      | none => n
      | some tv =>
        match pyFloat qv with
        | .error _ => n
        | .ok x =>
          if 0 < x then
            match pyFloat tv with
            | .ok y => n ++ [(kUnitPrice, .jNum (y / x))]
            | .error _ => n
          else n

/-- The key ban list of line 145. -/
def bannedExtraKey (k : String) : Bool :=
  k == kQuantity || k == kUnitPrice || k == kTotal || k == kRequestItem

/-- Lines 144-146: pass through input fields that are not already present
and are not canonical keys. -/
def addExtras (item n : Record) : Record :=
  item.foldl (fun acc kv =>
    match find acc kv.1 with
    | some _ => acc
    | none => if bannedExtraKey kv.1 then acc else acc ++ [kv]) n

/-- One iteration of normalize_fields_manually (lines 95-148). -/
def normalizeItem (item : Record) : Except Unit Record :=
  match resolveStage item with
  | .ok r => .ok (addExtras item (deriveUPStep (deriveTotalStep r)))
  | .error e => .error e

/-- The output record of one successful normalizeItem run, given the
resolved Total: derivations on the canonical record, then extras. -/
def normOut (item : Record) (tot : Option JVal) : Record :=
  addExtras item (deriveUPStep (deriveTotalStep (resolvedRecord item tot)))

/-- normalize_fields_manually (lines 91-150): one output record per input
record, in input order; an uncaught exception aborts the whole call. -/
def normalizeFieldsManually : List Record → Except Unit (List Record)
  | [] => .ok []
  | item :: rest =>
    match normalizeItem item with
    | .error e => .error e
    | .ok o =>
      match normalizeFieldsManually rest with
      | .error e => .error e
      | .ok os => .ok (o :: os)

/-- routers/sales_orders.py create_new_sales_order lines 71-73. -/
def routerRIPart (item : Record) : Record :=
  match find item kRequestItem with
  | some v => [(kRequestItem, v)]
  | none => []

/-- Lines 76-82: Quantity / Qty / Amount; the Amount branch stores the value
under both keys. -/
def routerQtyPart (item : Record) : Record :=
  match find item kQuantity with
  | some v => [(kQuantity, v)]
  | none =>
    match find item kQty with
    | some v => [(kQuantity, v)]
    | none =>
      match find item kAmount with
      | some v => [(kQuantity, v), (kAmount, v)]
      | none => []

/-- Lines 85-88: Unit Price / Price. -/
def routerUPPart (item : Record) : Record :=
  match find item kUnitPrice with
  | some v => [(kUnitPrice, v)]
  | none =>
    match find item kPrice with
    | some v => [(kUnitPrice, v)]
    | none => []

/-- Lines 91-92: Total copied when present. -/
def routerTotPart (item : Record) : Record :=
  match find item kTotal with
  | some v => [(kTotal, v)]
  | none => []

/-- The router's inline normalization of one line item (lines 68-98);
lines 95-96 always set matched_item and match_score, null when absent. -/
def routerNormalizeItem (item : Record) : Record :=
  routerRIPart item ++ routerQtyPart item ++ routerUPPart item ++ routerTotPart item ++
    [(kMatchedItem, (find item kMatchedItem).getD .jNull), (kMatchScore, (find item kMatchScore).getD .jNull)]

/-- `match_results.get(request_item, [])` in sales_order_service line 95. -/
def getMatches (mr : List (String × List JVal)) (s : String) : List JVal :=
  match find mr s with
  | some l => l
  | none => []

/-- sales_order_service.match_sales_order_items lines 93-108, one line item:
copy the item, then install the primary match, score and alternates, or
explicit nulls and an empty list. `none` models the KeyErrors raised when
the item has no Request Item text or a match entry is malformed. -/
def aggregateItem (mr : List (String × List JVal)) (item : Record) : Option Record :=
  match find item kRequestItem with
  | some (.jStr s) =>
    match getMatches mr s with
    | [] => some (setKey (setKey (setKey item kMatchedItem .jNull) kMatchScore .jNull) kAlternateMatches (.jArr []))
    | m :: rest =>
      match m with
      | .jObj mf =>
        match find mf kMatch, find mf kScore with
        | some mv, some sv =>
          some (setKey (setKey (setKey item kMatchedItem mv) kMatchScore sv) kAlternateMatches (.jArr rest))
        | _, _ => none
      | _ => none
  | _ => none

/-- The whole updated_line_items loop of match_sales_order_items. -/
def matchSalesOrderItems (mr : List (String × List JVal)) : List Record → Option (List Record)
  | [] => some []
  | item :: rest =>
    match aggregateItem mr item with
    | none => none
    | some o =>
      match matchSalesOrderItems mr rest with
      | none => none
      | some os => some (o :: os)

inductive StoreErr where
  | notFound
  | invalidIndex
  | keyError
  | typeError

/-- json_storage.create_sales_order lines 45-65. The two `datetime.now()`
calls are modelled as two clock reads `t1` (created_at) and `t2`
(updated_at); `newId` stands for the generated uuid4. Returns the new order
and the saved collection. -/
def createSalesOrder (st : List Record) (newId : String) (t1 t2 : Nat) (fileName : String) (lineItems : List Record) : Record × List Record :=
  let o : Record := [(kId, .jStr newId), (kFileName, .jStr fileName), (kLineItems, .jArr (lineItems.map JVal.jObj)), (kCreatedAt, .jTime t1), (kUpdatedAt, .jTime t2), (kStatus, .jStr ("pending"))]
  (o, st ++ [o])

/-- json_storage.get_sales_order_by_id lines 67-73: first order whose `_id`
equals the requested id; `keyError` when a scanned order has no `_id`. -/
def getSalesOrderById : List Record → String → Except StoreErr (Option Record)
  | [], _ => .ok none
  | o :: rest, id =>
    match find o kId with
    | none => .error .keyError
    | some (.jStr s) => if s = id then .ok (some o) else getSalesOrderById rest id
    | some _ => getSalesOrderById rest id

/-- json_storage.update_sales_order lines 75-98: shallow merge of the given
fields into the first matching order (no guard on any key, `_id` included),
then `updated_at = now()`. Returns the updated order and saved collection. -/
def updateSalesOrder : List Record → String → List (String × JVal) → Nat → Except StoreErr (Record × List Record)
  | [], _, _, _ => .error .notFound
  | o :: rest, id, upd, now =>
    match find o kId with
    | none => .error .keyError
    | some (.jStr s) =>
      if s = id then
        let o2 := setKey (applyUpdates o upd) kUpdatedAt (.jTime now)
        .ok (o2, o2 :: rest)
      else
        match updateSalesOrder rest id upd now with
        | .ok p => .ok (p.1, o :: p.2)
        | .error e => .error e
    | some _ =>
      match updateSalesOrder rest id upd now with
      | .ok p => .ok (p.1, o :: p.2)
      | .error e => .error e

/-- `for key, value in updates.items(): line_item[key] = value`; the first
assignment raises TypeError when the element is not a dict. -/
def setItemKeys : JVal → List (String × JVal) → Except StoreErr JVal
  | v, [] => .ok v
  | v, kv :: rest =>
    match v with
    | .jObj fields => setItemKeys (.jObj (setKey fields kv.1 kv.2)) rest
    | _ => .error .typeError

/-- json_storage.update_line_item lines 100-127: find the order, validate
`0 <= index < len(line_items)` (ValueError = `invalidIndex` otherwise, with
the negative test short-circuiting before `line_items` is read), merge the
fields into that one element, bump `updated_at`, save, return the order. -/
def updateLineItem : List Record → String → Int → List (String × JVal) → Nat → Except StoreErr (Record × List Record)
  | [], _, _, _, _ => .error .notFound
  | o :: rest, id, idx, upd, now =>
    match find o kId with
    | none => .error .keyError
    | some (.jStr s) =>
      if s = id then
        if idx < 0 then .error .invalidIndex
        else
          match find o kLineItems with
          | none => .error .keyError
          | some (.jArr xs) =>
            if (xs.length : Int) ≤ idx then .error .invalidIndex
            else
              match xs.get? idx.toNat with
              | none => .error .invalidIndex
              | some v =>
                match setItemKeys v upd with
                | .ok v2 =>
                  let o2 := setKey (setKey o kLineItems (.jArr (xs.set idx.toNat v2))) kUpdatedAt (.jTime now)
                  .ok (o2, o2 :: rest)
                | .error e => .error e
          | some _ => .error .typeError
      else
        match updateLineItem rest id idx upd now with
        | .ok p => .ok (p.1, o :: p.2)
        | .error e => .error e
    | some _ =>
      match updateLineItem rest id idx upd now with
      | .ok p => .ok (p.1, o :: p.2)
      | .error e => .error e

/-- The file contents after update_line_item: written only on success, so an
exception leaves the stored collection unchanged. -/
def updateLineItemState (st : List Record) (id : String) (idx : Int) (upd : List (String × JVal)) (now : Nat) : List Record :=
  match updateLineItem st id idx upd now with
  | .ok p => p.2
  | .error _ => st

/-- json_storage.delete_sales_order lines 129-144: pop the first matching
order; returns whether anything was removed. -/
def deleteSalesOrder : List Record → String → Except StoreErr (Bool × List Record)
  | [], _ => .ok (false, [])
  | o :: rest, id =>
    match find o kId with
    | none => .error .keyError
    | some (.jStr s) =>
      if s = id then .ok (true, rest)
      else
        match deleteSalesOrder rest id with
        | .ok p => .ok (p.1, o :: p.2)
        | .error e => .error e
    | some _ =>
      match deleteSalesOrder rest id with
      | .ok p => .ok (p.1, o :: p.2)
      | .error e => .error e

/-- A mutating store operation, for the id-stability invariant. -/
inductive StoreOp where
  | updOrder (id : String) (upd : List (String × JVal)) (t : Nat)
  | updItem (id : String) (idx : Int) (upd : List (String × JVal)) (t : Nat)
  | delOrder (id : String)

/-- File contents after one operation: an exception aborts before the save,
leaving the collection unchanged. -/
def applyOp (st : List Record) (op : StoreOp) : List Record :=
  match op with
  | .updOrder id upd t =>
    match updateSalesOrder st id upd t with
    | .ok p => p.2
    | .error _ => st
  | .updItem id idx upd t => updateLineItemState st id idx upd t
  | .delOrder id =>
    match deleteSalesOrder st id with
    | .ok p => p.2
    | .error _ => st

def applyOps (st : List Record) (ops : List StoreOp) : List Record := ops.foldl applyOp st

/-- An operation that does not name `_id` in an order-level update and does
not delete the order with id `i`. -/
def opKeepsId (i : String) : StoreOp → Prop
  | .updOrder _ upd _ => find upd kId = none
  | .updItem _ _ _ _ => True
  | .delOrder j => j ≠ i

/-- Python str() for the scalar values that reach CSV cells. The digit
rendering of numbers is simplified (floats print as rationals); no verified
claim depends on it, only the quoting of the two text columns is claimed. -/
def pyStr : JVal → String
  | .jStr s => s
  | .jNum q => if q.den = 1 then toString q.num else toString q
  | .jNull => "None"
  | .jTime t => toString t
  | .jArr _ => ""
  | .jObj _ => ""

/-- `item.get(k) is not None`: the value, unless absent or null. -/
def getNonNull (item : Record) (k : String) : Option JVal :=
  match find item k with
  | some .jNull => none
  | some v => some v
  | none => none

/-- routers/sales_orders.py lines 276-277: text column value, empty string
when the key is absent or None. -/
def textCell (item : Record) (k : String) : String :=
  match getNonNull item k with
  | some v => pyStr v
  | none => ""

/-- Lines 280-286: Quantity column from Quantity, then Qty, then Amount. -/
def qtyCell (item : Record) : String :=
  match getNonNull item kQuantity with
  | some v => pyStr v
  | none =>
    match getNonNull item kQty with
    | some v => pyStr v
    | none =>
      match getNonNull item kAmount with
      | some v => pyStr v
      | none => ""

/-- Two-decimal rendering of a rational, modelling Python's "%.2f" (rounding
at the exact half differs from float round-half-even; no claim depends on
it). -/
def twoDec (q : ℚ) : String :=
  let n : Int := round (q * 100)
  let a : Nat := n.natAbs
  (if n < 0 then "-" else "") ++ toString (a / 100) ++ "." ++ (if a % 100 < 10 then "0" else "") ++ toString (a % 100)

/-- Lines 290-307: `f"{float(v):.2f}"` with fallback to str(v) when the
coercion raises. -/
def moneyCell (v : JVal) : String :=
  match pyFloat v with
  | .ok q => twoDec q
  | .error _ => pyStr v

/-- Lines 289-299: Unit Price column from Unit Price, then Price. -/
def upCell (item : Record) : String :=
  match getNonNull item kUnitPrice with
  | some v => moneyCell v
  | none =>
    match getNonNull item kPrice with
    | some v => moneyCell v
    | none => ""

/-- Lines 302-307: Total column. -/
def totCell (item : Record) : String :=
  match getNonNull item kTotal with
  | some v => moneyCell v
  | none => ""

def dq : String := "\""
def dq2 : String := "\"\""

/-- `s.replace("\"", "\"\"")`: double every embedded double quote. -/
def doubleQuotes (s : String) : String :=
  String.mk (s.data.foldr (fun c acc => if c == '"' then c :: c :: acc else c :: acc) [])

/-- Lines 310-311: wrap in double quotes, doubling embedded quotes, exactly
when the value contains a comma or a double quote. -/
def csvEscape (s : String) : String :=
  if s.data.contains ',' || s.data.contains '"' then dq ++ doubleQuotes s ++ dq else s

/-- Line 314: one CSV data row. Only the two text columns are escaped. -/
def csvRow (item : Record) : String :=
  csvEscape (textCell item kRequestItem) ++ "," ++ csvEscape (textCell item kMatchedItem) ++ "," ++ qtyCell item ++ "," ++ upCell item ++ "," ++ totCell item ++ "\n"

def csvHeader : String := "Request Item,Matched Product,Quantity,Unit Price,Total\n"

/-- Lines 272-314: header plus one row per line item, in order. -/
def csvContent (items : List Record) : String :=
  items.foldl (fun acc it => acc ++ csvRow it) csvHeader

/-! Concrete inputs used by witnesses and counterexamples. -/

def c1item : Record := [(kRequestItem, .jStr ("Bolt")), (kQuantity, .jNum 10), (kAmount, .jNum 25)]

def c1item2 : Record := [(kRequestItem, .jStr ("Bolt")), (kAmount, .jNum 5), (kQuantity, .jNum 10)]

/-- Numeric Amount next to a non-numeric Quantity: the heuristic comparison
raises TypeError. -/
def c1cexItem : Record := [(kRequestItem, .jStr ("Bolt")), (kAmount, .jNum 25), (kQuantity, .jStr ("x"))]

def c2itemA : Record := [(kRequestItem, .jStr ("Gear")), (kQuantity, .jNum 2), (kUnitPrice, .jNum 3)]

def c2itemB : Record := [(kRequestItem, .jStr ("Cog")), (kQuantity, .jNum 4), (kTotal, .jNum 10)]

def c3mr : List (String × List JVal) := [("Nut", [.jObj [(kMatch, .jStr ("Hex Nut")), (kScore, .jNum 95)], .jObj [(kMatch, .jStr ("Wing Nut")), (kScore, .jNum 80)]])]

def c3item : Record := [(kRequestItem, .jStr ("Nut")), (kQuantity, .jNum 3)]

def c5order : Record := [(kId, .jStr ("a")), (kLineItems, .jArr [.jObj [(kQuantity, .jNum 1)]]), (kUpdatedAt, .jTime 0)]

def c6cexInput : List Record := [[(kRequestItem, .jStr ("Bolt")), (kAmount, .jNum 25), (kQuantity, .jStr ("ten"))]]

def c7cexItem : Record := [(kRequestItem, .jStr ("Widget"))]

def c7witItem : Record := [(kRequestItem, .jStr ("Pin")), (kMatchedItem, .jStr ("Steel Pin")), (kMatchScore, .jNum 88)]

def c8item : Record := [(kRequestItem, .jStr ("Brass, 1\"")), (kMatchedItem, .jStr ("Brass Pipe")), (kQuantity, .jNum 4)]

/-- Qty-resolved Quantity next to a passed-through Amount: the Amount-as-
Total heuristic cannot fire on the first pass (no raw "Quantity" key) but
fires on the second pass, whose input does have a "Quantity" key. -/
def c9cexItem : Record := [(kRequestItem, .jStr ("B")), (kQty, .jNum 0), (kAmount, .jNum 25)]

def c9cexOut1 : Record := [(kRequestItem, .jStr ("B")), (kQuantity, .jNum 0), (kQty, .jNum 0), (kAmount, .jNum 25)]

def c9cexOut2 : Record := [(kRequestItem, .jStr ("B")), (kQuantity, .jNum 0), (kTotal, .jNum 25), (kQty, .jNum 0), (kAmount, .jNum 25)]

def c9witItems : List Record := [[(kRequestItem, .jStr ("Widget")), (kQuantity, .jNum 2)]]

def c10st : List Record := [[(kId, .jStr ("a")), (kStatus, .jStr ("pending"))]]

def c10cexOut : Record := [(kId, .jStr ("b")), (kStatus, .jStr ("pending")), (kUpdatedAt, .jTime 1)]

def c10ops : List StoreOp := [.updOrder ("a") [(kStatus, .jStr ("matched"))] 5, .delOrder ("zzz")]

/-! Basic lookup lemmas. -/

theorem find_append_some {α : Type} {r : List (String × α)} {k : String} {v : α} (h : find r k = some v) (s : List (String × α)) : find (r ++ s) k = some v := by
  induction r with
  | nil => simp [find] at h
  | cons kv rest ih =>
    by_cases hk : kv.1 = k
    · simp only [find, hk, if_true] at h
      simp [find, hk, h]
    · simp only [find, hk, if_false] at h
      simp [find, hk, ih h]

theorem find_append_none {α : Type} {r : List (String × α)} {k : String} (h : find r k = none) (s : List (String × α)) : find (r ++ s) k = find s k := by
  induction r with
  | nil => rfl
  | cons kv rest ih =>
    by_cases hk : kv.1 = k
    · simp [find, hk] at h
    · simp only [find, hk, if_false] at h
      simp [find, hk, ih h]

theorem find_append_single_ne {α : Type} (n : List (String × α)) (k₀ k : String) (w : α) (h : k ≠ k₀) : find (n ++ [(k₀, w)]) k = find n k := by
  cases hf : find n k with
  | some v => exact find_append_some hf _
  | none => rw [find_append_none hf]; simp [find, Ne.symm h]

theorem find_addOpt_ne (r : Record) (v : Option JVal) {k k' : String} (h : k' ≠ k) : find (addOpt r k v) k' = find r k' := by
  cases v with
  | none => rfl
  | some w => exact find_append_single_ne r k k' w h

theorem find_addOpt_self (r : Record) {k : String} (v : Option JVal) (h : find r k = none) : find (addOpt r k v) k = v := by
  cases v with
  | none => simpa [addOpt] using h
  | some w => simp only [addOpt]; rw [find_append_none h]; simp [find]

theorem find_setKey_self {α : Type} (r : List (String × α)) (k : String) (v : α) : find (setKey r k v) k = some v := by
  induction r with
  | nil => simp [setKey, find]
  | cons kv rest ih =>
    by_cases hk : kv.1 = k
    · simp [setKey, hk, find]
    · simp [setKey, hk, find, ih]

theorem find_setKey_ne {α : Type} (r : List (String × α)) {k k' : String} (v : α) (h : k' ≠ k) : find (setKey r k v) k' = find r k' := by
  induction r with
  | nil => simp [setKey, find, Ne.symm h]
  | cons kv rest ih =>
    by_cases hk : kv.1 = k
    · simp [setKey, hk, find, Ne.symm h, hk ▸ (Ne.symm h)]
    · simp [setKey, hk, find, ih]

theorem find_applyUpdates_ne {α : Type} (upd : List (String × α)) : ∀ (r : List (String × α)) {k : String}, find upd k = none → find (applyUpdates r upd) k = find r k := by
  induction upd with
  | nil => intro r k _; rfl
  | cons kv rest ih =>
    intro r k h
    by_cases hk : kv.1 = k
    · simp [find, hk] at h
    · simp only [find, hk, if_false] at h
      have hstep : applyUpdates r (kv :: rest) = applyUpdates (setKey r kv.1 kv.2) rest := rfl
      rw [hstep, ih _ h, find_setKey_ne _ _ (fun hh => hk hh.symm)]

/-! Characterization of the synonym-resolution record. -/

theorem find_rr_ri (item : Record) (tot : Option JVal) : find (resolvedRecord item tot) kRequestItem = resolveRI item := by
  unfold resolvedRecord
  rw [find_addOpt_ne _ _ (by decide : kRequestItem ≠ kTotal),
    find_addOpt_ne _ _ (by decide : kRequestItem ≠ kUnitPrice),
    find_addOpt_ne _ _ (by decide : kRequestItem ≠ kQuantity)]
  exact find_addOpt_self _ _ rfl

theorem find_rr_qty (item : Record) (tot : Option JVal) : find (resolvedRecord item tot) kQuantity = resolvedQty item := by
  unfold resolvedRecord
  rw [find_addOpt_ne _ _ (by decide : kQuantity ≠ kTotal),
    find_addOpt_ne _ _ (by decide : kQuantity ≠ kUnitPrice)]
  apply find_addOpt_self
  rw [find_addOpt_ne _ _ (by decide : kQuantity ≠ kRequestItem)]
  rfl

theorem find_rr_up (item : Record) (tot : Option JVal) : find (resolvedRecord item tot) kUnitPrice = resolvedUP item := by
  unfold resolvedRecord
  rw [find_addOpt_ne _ _ (by decide : kUnitPrice ≠ kTotal)]
  apply find_addOpt_self
  rw [find_addOpt_ne _ _ (by decide : kUnitPrice ≠ kQuantity),
    find_addOpt_ne _ _ (by decide : kUnitPrice ≠ kRequestItem)]
  rfl

theorem find_rr_total (item : Record) (tot : Option JVal) : find (resolvedRecord item tot) kTotal = tot := by
  unfold resolvedRecord
  apply find_addOpt_self
  rw [find_addOpt_ne _ _ (by decide : kTotal ≠ kUnitPrice),
    find_addOpt_ne _ _ (by decide : kTotal ≠ kQuantity),
    find_addOpt_ne _ _ (by decide : kTotal ≠ kRequestItem)]
  rfl

theorem find_rr_other (item : Record) (tot : Option JVal) {k : String} (h1 : k ≠ kRequestItem) (h2 : k ≠ kQuantity) (h3 : k ≠ kUnitPrice) (h4 : k ≠ kTotal) : find (resolvedRecord item tot) k = none := by
  unfold resolvedRecord
  rw [find_addOpt_ne _ _ h4, find_addOpt_ne _ _ h3, find_addOpt_ne _ _ h2, find_addOpt_ne _ _ h1]
  rfl

/-! Case analyses of the two derivation steps. -/

theorem list_ne_append_single {α : Type} (n : List α) (x : α) : n ≠ n ++ [x] := by
  intro h
  have := congrArg List.length h
  simp at this

theorem dts_eq_self_or (n : Record) :
    deriveTotalStep n = n ∨
    ∃ qv uv x y, find n kTotal = none ∧ find n kQuantity = some qv ∧ find n kUnitPrice = some uv ∧
      pyFloat qv = .ok x ∧ pyFloat uv = .ok y ∧ deriveTotalStep n = n ++ [(kTotal, .jNum (x * y))] := by
  unfold deriveTotalStep
  cases e1 : find n kTotal with
  | some v => simp
  | none =>
    cases e2 : find n kQuantity with
    | none => simp
    | some qv =>
      cases e3 : find n kUnitPrice with
      | none => simp
      | some uv =>
        cases e4 : pyFloat qv with
        | error u => simp [e4]
        | ok x =>
          cases e5 : pyFloat uv with
          | error u => simp [e4, e5]
          | ok y =>
            right
            refine ⟨qv, uv, x, y, ?_, ?_, ?_, ?_, ?_, ?_⟩ <;> simp [e1, e2, e3, e4, e5]

theorem dup_eq_self_or (n : Record) :
    deriveUPStep n = n ∨
    ∃ qv tv x y, find n kUnitPrice = none ∧ find n kQuantity = some qv ∧ find n kTotal = some tv ∧
      pyFloat qv = .ok x ∧ 0 < x ∧ pyFloat tv = .ok y ∧ deriveUPStep n = n ++ [(kUnitPrice, .jNum (y / x))] := by
  unfold deriveUPStep
  cases e1 : find n kUnitPrice with
  | some v => simp
  | none =>
    cases e2 : find n kQuantity with
    | none => simp
    | some qv =>
      cases e3 : find n kTotal with
      | none => simp
      | some tv =>
        cases e4 : pyFloat qv with
        | error u => simp [e4]
        | ok x =>
          by_cases e5 : 0 < x
          · cases e6 : pyFloat tv with
            | error u => simp [e4, e5, e6]
            | ok y =>
              right
              refine ⟨qv, tv, x, y, ?_, ?_, ?_, ?_, ?_, ?_, ?_⟩ <;> simp [e1, e2, e3, e4, e5, e6]
          · simp [e4, e5]

theorem find_dts_ne (n : Record) {k : String} (h : k ≠ kTotal) : find (deriveTotalStep n) k = find n k := by
  rcases dts_eq_self_or n with he | ⟨qv, uv, x, y, _, _, _, _, _, he⟩ <;> rw [he]
  exact find_append_single_ne _ _ _ _ h

theorem find_dup_ne (n : Record) {k : String} (h : k ≠ kUnitPrice) : find (deriveUPStep n) k = find n k := by
  rcases dup_eq_self_or n with he | ⟨qv, tv, x, y, _, _, _, _, _, _, he⟩ <;> rw [he]
  exact find_append_single_ne _ _ _ _ h

theorem dts_of_total_none (n : Record) (h : find (deriveTotalStep n) kTotal = none) :
    deriveTotalStep n = n ∧ find n kTotal = none := by
  rcases dts_eq_self_or n with he | ⟨qv, uv, x, y, h1, _, _, _, _, he⟩
  · exact ⟨he, he ▸ h⟩
  · rw [he, find_append_none h1] at h
    simp [find] at h

theorem dup_of_up_none (n : Record) (h : find (deriveUPStep n) kUnitPrice = none) :
    deriveUPStep n = n ∧ find n kUnitPrice = none := by
  rcases dup_eq_self_or n with he | ⟨qv, tv, x, y, h1, _, _, _, _, _, he⟩
  · exact ⟨he, he ▸ h⟩
  · rw [he, find_append_none h1] at h
    simp [find] at h

/-! Characterization of the extra-field pass-through. -/

theorem find_addExtras (item : Record) : ∀ (n : Record) (k : String),
    find (addExtras item n) k =
      match find n k with
      | some v => some v
      | none => if bannedExtraKey k then none else find item k := by
  induction item with
  | nil =>
    intro n k
    cases h : find n k <;> simp [addExtras, h, find]
  | cons kv rest ih =>
    intro n k
    have hstep : addExtras (kv :: rest) n =
        addExtras rest (match find n kv.1 with
          | some _ => n
          | none => if bannedExtraKey kv.1 then n else n ++ [kv]) := rfl
    rw [hstep]
    cases h1 : find n kv.1 with
    | some v =>
      simp only [h1]
      rw [ih]
      rcases eq_or_ne k kv.1 with rfl | hk
      · simp [h1]
      · cases h2 : find n k <;> simp [h2, find, Ne.symm hk]
    | none =>
      simp only [h1]
      by_cases hb : bannedExtraKey kv.1 = true
      · simp only [hb, if_true]
        rw [ih]
        rcases eq_or_ne k kv.1 with rfl | hk
        · simp [h1, hb]
        · cases h2 : find n k <;> simp [h2, find, Ne.symm hk]
      · have hb' : bannedExtraKey kv.1 = false := by simpa using hb
        simp only [hb', Bool.false_eq_true, if_false]
        rw [ih]
        rcases eq_or_ne k kv.1 with rfl | hk
        · have hone : find (n ++ [kv]) kv.1 = some kv.2 := by
            rw [find_append_none h1]; simp [find]
          simp [hone, h1, hb', find]
        · have hone : find (n ++ [kv]) k = find n k := find_append_single_ne n kv.1 k kv.2 hk
          rw [hone]
          cases h2 : find n k <;> simp [h2, find, Ne.symm hk]

/-! Characterization of one normalized output record. -/

theorem banned_false_iff (k : String) : bannedExtraKey k = false ↔ k ≠ kQuantity ∧ k ≠ kUnitPrice ∧ k ≠ kTotal ∧ k ≠ kRequestItem := by
  simp only [bannedExtraKey, Bool.or_eq_false_iff, beq_eq_false_iff_ne]
  tauto

theorem normalizeItem_eq (item : Record) (tot : Option JVal) (h : totalResolve item = .ok tot) :
    normalizeItem item = .ok (addExtras item (deriveUPStep (deriveTotalStep (resolvedRecord item tot)))) := by
  simp [normalizeItem, resolveStage, h]

theorem find_addExtras_banned (item n : Record) {k : String} (hb : bannedExtraKey k = true) :
    find (addExtras item n) k = find n k := by
  rw [find_addExtras]
  cases h : find n k <;> simp [h, hb]

theorem find_dts_total_some (n : Record) {v : JVal} (h : find n kTotal = some v) :
    find (deriveTotalStep n) kTotal = some v := by
  rcases dts_eq_self_or n with he | ⟨qv, uv, x, y, h1, _, _, _, _, _⟩
  · rw [he, h]
  · rw [h1] at h; exact absurd h (by simp)

theorem dts_of_no_up (n : Record) (h : find n kUnitPrice = none) : deriveTotalStep n = n := by
  rcases dts_eq_self_or n with he | ⟨qv, uv, x, y, _, _, h3, _, _, _⟩
  · exact he
  · rw [h3] at h; exact absurd h (by simp)

theorem find_out_nonbanned (item : Record) (tot : Option JVal) {k : String} (hb : bannedExtraKey k = false) :
    find (addExtras item (deriveUPStep (deriveTotalStep (resolvedRecord item tot)))) k = find item k := by
  obtain ⟨h2, h3, h4, h1⟩ := (banned_false_iff k).mp hb
  rw [find_addExtras, find_dup_ne _ h3, find_dts_ne _ h4, find_rr_other _ _ h1 h2 h3 h4]
  simp [hb]

theorem find_out_ri (item : Record) (tot : Option JVal) :
    find (addExtras item (deriveUPStep (deriveTotalStep (resolvedRecord item tot)))) kRequestItem = resolveRI item := by
  rw [find_addExtras_banned _ _ (by decide), find_dup_ne _ (by decide), find_dts_ne _ (by decide), find_rr_ri]

theorem find_out_qty (item : Record) (tot : Option JVal) :
    find (addExtras item (deriveUPStep (deriveTotalStep (resolvedRecord item tot)))) kQuantity = resolvedQty item := by
  rw [find_addExtras_banned _ _ (by decide), find_dup_ne _ (by decide), find_dts_ne _ (by decide), find_rr_qty]

theorem find_out_up (item : Record) (tot : Option JVal) :
    find (addExtras item (deriveUPStep (deriveTotalStep (resolvedRecord item tot)))) kUnitPrice = find (deriveUPStep (deriveTotalStep (resolvedRecord item tot))) kUnitPrice := by
  exact find_addExtras_banned _ _ (by decide)

theorem find_out_total (item : Record) (tot : Option JVal) :
    find (addExtras item (deriveUPStep (deriveTotalStep (resolvedRecord item tot)))) kTotal = find (deriveTotalStep (resolvedRecord item tot)) kTotal := by
  rw [find_addExtras_banned _ _ (by decide), find_dup_ne _ (by decide)]

theorem totalResolve_heuristic (item : Record) (a q : ℚ) (hT : find item kTotal = none) (ha : find item kAmount = some (.jNum a)) (hq : find item kQuantity = some (.jNum q)) :
    totalResolve item = .ok (if q < a then some (.jNum a) else none) := by
  unfold totalResolve
  simp only [hT, ha, hq, numGtVal]
  by_cases h : q < a <;> simp [h]

/-- Claim C1 (amended): for every raw record with Total absent and Amount and
Quantity both present and both numeric, the synonym-resolution stage sets the
canonical Total equal to the Amount value exactly when Amount > Quantity,
Quantity is passed through unchanged, and when Amount is not greater and no
Unit-Price synonym is present the final output has no Total. -/
theorem c1_amount_total_heuristic (item : Record) (a q : ℚ)
    (hT : find item kTotal = none)
    (ha : find item kAmount = some (.jNum a))
    (hq : find item kQuantity = some (.jNum q)) :
    ∃ r out, resolveStage item = .ok r ∧ normalizeItem item = .ok out ∧
      (find r kTotal = some (.jNum a) ↔ q < a) ∧
      find out kQuantity = some (.jNum q) ∧
      (q < a → find out kTotal = some (.jNum a)) ∧
      (¬ q < a → find item kUnitPrice = none → find item kPrice = none → find item kUnitCost = none → find out kTotal = none) := by
  have htr := totalResolve_heuristic item a q hT ha hq
  refine ⟨resolvedRecord item (if q < a then some (.jNum a) else none), _,
    by simp [resolveStage, htr], normalizeItem_eq item _ htr, ?_, ?_, ?_, ?_⟩
  · rw [find_rr_total]
    by_cases h : q < a <;> simp [h]
  · rw [find_out_qty]
    simp [resolvedQty, hq]
  · intro h
    rw [find_out_total]
    apply find_dts_total_some
    rw [find_rr_total]
    simp [h]
  · intro h h1 h2 h3
    have hup : resolvedUP item = none := by simp [resolvedUP, h1, h2, h3]
    rw [find_out_total]
    have hr : find (resolvedRecord item (if q < a then some (.jNum a) else none)) kUnitPrice = none := by
      rw [find_rr_up]; exact hup
    rw [dts_of_no_up _ hr, find_rr_total]
    simp [h]

/-- Claim C1 counterexample: the claim as stated only requires Amount to be
numeric; on a record whose Quantity is the string "x" the heuristic
comparison raises TypeError, so normalize returns no record at all — in
particular it does not set Total by the stated rule nor leave Quantity
unchanged in any output. -/
theorem c1_counterexample :
    find c1cexItem kTotal = none ∧ find c1cexItem kAmount = some (.jNum 25) ∧
    find c1cexItem kQuantity = some (.jStr ("x")) ∧ normalizeItem c1cexItem = .error () ∧
    normalizeFieldsManually [c1cexItem] = .error () :=
  ⟨rfl, rfl, rfl, rfl, rfl⟩

/-- Witness for C1: the spec's own example record with Quantity 10 and
Amount 25 satisfies every hypothesis and yields Total 25, Quantity 10. -/
theorem c1_witness :
    (find c1item kTotal = none ∧ find c1item kAmount = some (.jNum 25) ∧ find c1item kQuantity = some (.jNum 10)) ∧
    (∃ r out, resolveStage c1item = .ok r ∧ normalizeItem c1item = .ok out ∧
      (find r kTotal = some (.jNum 25) ↔ (10 : ℚ) < 25) ∧
      find out kQuantity = some (.jNum 10) ∧
      ((10 : ℚ) < 25 → find out kTotal = some (.jNum 25)) ∧
      (¬ (10 : ℚ) < 25 → find c1item kUnitPrice = none → find c1item kPrice = none → find c1item kUnitCost = none → find out kTotal = none)) :=
  ⟨⟨rfl, rfl, rfl⟩, c1_amount_total_heuristic c1item 25 10 rfl rfl rfl⟩

/-- Claim C2 (confirmed): when the resolved Quantity and Unit Price are
numeric and Total is still missing after synonym resolution, normalize sets
Total = Quantity × Unit Price; when the resolved Quantity and Total are
numeric, Unit Price is still missing and Quantity > 0, normalize sets
Unit Price = Total / Quantity; and the Unit-Price derivation never fires in
the same pass as the Total derivation. -/
theorem c2_derivations :
    (∀ item q u, resolvedQty item = some (.jNum q) → resolvedUP item = some (.jNum u) →
      totalResolve item = .ok none →
      ∃ out, normalizeItem item = .ok out ∧ find out kTotal = some (.jNum (q * u))) ∧
    (∀ item q t, resolvedQty item = some (.jNum q) → resolvedUP item = none →
      totalResolve item = .ok (some (.jNum t)) → 0 < q →
      ∃ out, normalizeItem item = .ok out ∧ find out kUnitPrice = some (.jNum (t / q))) ∧
    (∀ r : Record, deriveTotalStep r ≠ r → deriveUPStep (deriveTotalStep r) = deriveTotalStep r) := by
  refine ⟨?_, ?_, ?_⟩
  · intro item q u hq hu ht
    refine ⟨_, normalizeItem_eq item none ht, ?_⟩
    rw [find_out_total]
    have h1 : find (resolvedRecord item none) kTotal = none := find_rr_total _ _
    have h2 : find (resolvedRecord item none) kQuantity = some (.jNum q) := by
      rw [find_rr_qty]; exact hq
    have h3 : find (resolvedRecord item none) kUnitPrice = some (.jNum u) := by
      rw [find_rr_up]; exact hu
    have hfire : deriveTotalStep (resolvedRecord item none) = resolvedRecord item none ++ [(kTotal, .jNum (q * u))] := by
      unfold deriveTotalStep
      simp [h1, h2, h3, pyFloat]
    rw [hfire, find_append_none h1]
    simp [find]
  · intro item q t hq hu ht h0
    refine ⟨_, normalizeItem_eq item _ ht, ?_⟩
    rw [find_out_up]
    have h1 : find (resolvedRecord item (some (.jNum t))) kTotal = some (.jNum t) := find_rr_total _ _
    have h2 : find (resolvedRecord item (some (.jNum t))) kQuantity = some (.jNum q) := by
      rw [find_rr_qty]; exact hq
    have h3 : find (resolvedRecord item (some (.jNum t))) kUnitPrice = none := by
      rw [find_rr_up]; exact hu
    rw [dts_of_no_up _ h3]
    have hfire : deriveUPStep (resolvedRecord item (some (.jNum t))) = resolvedRecord item (some (.jNum t)) ++ [(kUnitPrice, .jNum (t / q))] := by
      unfold deriveUPStep
      simp [h1, h2, h3, pyFloat, h0]
    rw [hfire, find_append_none h3]
    simp [find]
  · intro r hne
    rcases dts_eq_self_or r with he | ⟨qv, uv, x, y, ht, hq, hu, _, _, he⟩
    · exact absurd he hne
    · rw [he]
      have hup : find (r ++ [(kTotal, .jNum (x * y))]) kUnitPrice = some uv := find_append_some hu _
      unfold deriveUPStep
      simp [hup]

/-- Witness for C2: Quantity 2 at Unit Price 3 derives Total 6; Quantity 4
with Total 10 derives Unit Price 10/4. -/
theorem c2_witness :
    (resolvedQty c2itemA = some (.jNum 2) ∧ resolvedUP c2itemA = some (.jNum 3) ∧ totalResolve c2itemA = .ok none ∧
      ∃ out, normalizeItem c2itemA = .ok out ∧ find out kTotal = some (.jNum (2 * 3))) ∧
    (resolvedQty c2itemB = some (.jNum 4) ∧ resolvedUP c2itemB = none ∧ totalResolve c2itemB = .ok (some (.jNum 10)) ∧ (0 : ℚ) < 4 ∧
      ∃ out, normalizeItem c2itemB = .ok out ∧ find out kUnitPrice = some (.jNum (10 / 4))) :=
  ⟨⟨rfl, rfl, rfl, c2_derivations.1 c2itemA 2 3 rfl rfl rfl⟩,
   ⟨rfl, rfl, rfl, by norm_num, c2_derivations.2.1 c2itemB 4 10 rfl rfl rfl (by norm_num)⟩⟩

/-- Claim C3 (confirmed): an aggregated line item whose request text has no
(or an empty) ranked match list gets explicit null matched_item and
match_score and an empty alternate_matches; otherwise the head of the list
becomes matched_item/match_score verbatim and the tail becomes
alternate_matches in order; all other fields are unchanged. -/
theorem c3_aggregate (mr : List (String × List JVal)) (item : Record) (s : String)
    (hri : find item kRequestItem = some (.jStr s)) :
    (getMatches mr s = [] →
      ∃ out, aggregateItem mr item = some out ∧
        find out kMatchedItem = some .jNull ∧ find out kMatchScore = some .jNull ∧
        find out kAlternateMatches = some (.jArr []) ∧
        ∀ k, k ≠ kMatchedItem → k ≠ kMatchScore → k ≠ kAlternateMatches → find out k = find item k) ∧
    (∀ mf rest mv sv, getMatches mr s = .jObj mf :: rest →
      find mf kMatch = some mv → find mf kScore = some sv →
      ∃ out, aggregateItem mr item = some out ∧
        find out kMatchedItem = some mv ∧ find out kMatchScore = some sv ∧
        find out kAlternateMatches = some (.jArr rest) ∧
        ∀ k, k ≠ kMatchedItem → k ≠ kMatchScore → k ≠ kAlternateMatches → find out k = find item k) := by
  constructor
  · intro hm
    refine ⟨setKey (setKey (setKey item kMatchedItem .jNull) kMatchScore .jNull) kAlternateMatches (.jArr []),
      by simp [aggregateItem, hri, hm], ?_, ?_, ?_, ?_⟩
    · rw [find_setKey_ne _ _ (by decide : kMatchedItem ≠ kAlternateMatches),
        find_setKey_ne _ _ (by decide : kMatchedItem ≠ kMatchScore), find_setKey_self]
    · rw [find_setKey_ne _ _ (by decide : kMatchScore ≠ kAlternateMatches), find_setKey_self]
    · rw [find_setKey_self]
    · intro k h1 h2 h3
      rw [find_setKey_ne _ _ h3, find_setKey_ne _ _ h2, find_setKey_ne _ _ h1]
  · intro mf rest mv sv hm hmv hsv
    refine ⟨setKey (setKey (setKey item kMatchedItem mv) kMatchScore sv) kAlternateMatches (.jArr rest),
      by simp [aggregateItem, hri, hm, hmv, hsv], ?_, ?_, ?_, ?_⟩
    · rw [find_setKey_ne _ _ (by decide : kMatchedItem ≠ kAlternateMatches),
        find_setKey_ne _ _ (by decide : kMatchedItem ≠ kMatchScore), find_setKey_self]
    · rw [find_setKey_ne _ _ (by decide : kMatchScore ≠ kAlternateMatches), find_setKey_self]
    · rw [find_setKey_self]
    · intro k h1 h2 h3
      rw [find_setKey_ne _ _ h3, find_setKey_ne _ _ h2, find_setKey_ne _ _ h1]

/-- Witness for C3: the spec's Nut example with two ranked matches yields
primary Hex Nut at 95 and one alternate Wing Nut at 80, in order. -/
theorem c3_witness :
    (find c3item kRequestItem = some (.jStr ("Nut"))) ∧
    (∃ out, aggregateItem c3mr c3item = some out ∧
      find out kMatchedItem = some (.jStr ("Hex Nut")) ∧ find out kMatchScore = some (.jNum 95) ∧
      find out kAlternateMatches = some (.jArr [.jObj [(kMatch, .jStr ("Wing Nut")), (kScore, .jNum 80)]]) ∧
      ∀ k, k ≠ kMatchedItem → k ≠ kMatchScore → k ≠ kAlternateMatches → find out k = find c3item k) :=
  ⟨rfl, (c3_aggregate c3mr c3item ("Nut") rfl).2 [(kMatch, .jStr ("Hex Nut")), (kScore, .jNum 95)]
    [.jObj [(kMatch, .jStr ("Wing Nut")), (kScore, .jNum 80)]] (.jStr ("Hex Nut")) (.jNum 95) rfl rfl rfl⟩

/-- Claim C6 (code bug): normalize is claimed never to raise for data-quality
issues, but on a record whose numeric Amount sits next to a string Quantity
the comparison `item["Amount"] > item["Quantity"]` raises TypeError and the
whole call aborts with no output records. -/
theorem c6_normalize_raises :
    c6cexInput = [[(kRequestItem, .jStr ("Bolt")), (kAmount, .jNum 25), (kQuantity, .jStr ("ten"))]] ∧
    normalizeFieldsManually c6cexInput = .error () :=
  ⟨rfl, rfl⟩

theorem router_parts_find_none (item : Record) {k : String}
    (h1 : k ≠ kRequestItem) (h2 : k ≠ kQuantity) (h3 : k ≠ kAmount) (h4 : k ≠ kUnitPrice) (h5 : k ≠ kTotal) :
    find (routerRIPart item) k = none ∧ find (routerQtyPart item) k = none ∧
    find (routerUPPart item) k = none ∧ find (routerTotPart item) k = none := by
  refine ⟨?_, ?_, ?_, ?_⟩
  · unfold routerRIPart
    cases find item kRequestItem <;> simp [find, Ne.symm h1]
  · unfold routerQtyPart
    cases find item kQuantity with
    | some v => simp [find, Ne.symm h2]
    | none =>
      cases find item kQty with
      | some v => simp [find, Ne.symm h2]
      | none =>
        cases find item kAmount with
        | some v => simp [find, Ne.symm h2, Ne.symm h3]
        | none => rfl
  · unfold routerUPPart
    cases find item kUnitPrice with
    | some v => simp [find, Ne.symm h4]
    | none =>
      cases find item kPrice with
      | some v => simp [find, Ne.symm h4]
      | none => rfl
  · unfold routerTotPart
    cases find item kTotal <;> simp [find, Ne.symm h5]

/-- Claim C7 (amended): the fallback normalizer preserves matched_item and
match_score exactly as given (same value when present, omitted when absent);
the always-present-with-null guarantee holds for the router's order-creation
normalizer, whose output always contains both keys. -/
theorem c7_match_keys :
    (∀ item out, normalizeItem item = .ok out →
      find out kMatchedItem = find item kMatchedItem ∧ find out kMatchScore = find item kMatchScore) ∧
    (∀ item : Record, find (routerNormalizeItem item) kMatchedItem = some ((find item kMatchedItem).getD .jNull) ∧
      find (routerNormalizeItem item) kMatchScore = some ((find item kMatchScore).getD .jNull)) := by
  constructor
  · intro item out h
    cases e : totalResolve item with
    | error u => simp [normalizeItem, resolveStage, e] at h
    | ok tot =>
      rw [normalizeItem_eq item tot e] at h
      injection h with h'
      subst h'
      exact ⟨find_out_nonbanned item tot (by decide), find_out_nonbanned item tot (by decide)⟩
  · intro item
    obtain ⟨hA, hB, hC, hD⟩ := router_parts_find_none item
      (by decide : kMatchedItem ≠ kRequestItem) (by decide) (by decide) (by decide) (by decide)
    obtain ⟨hA2, hB2, hC2, hD2⟩ := router_parts_find_none item
      (by decide : kMatchScore ≠ kRequestItem) (by decide) (by decide) (by decide) (by decide)
    constructor
    · unfold routerNormalizeItem
      rw [List.append_assoc, List.append_assoc, List.append_assoc,
        find_append_none hA, find_append_none hB, find_append_none hC, find_append_none hD]
      simp [find]
    · unfold routerNormalizeItem
      rw [List.append_assoc, List.append_assoc, List.append_assoc,
        find_append_none hA2, find_append_none hB2, find_append_none hC2, find_append_none hD2]
      simp [find, (by decide : ¬ (kMatchedItem = kMatchScore))]

/-- Claim C7 counterexample: the fallback normalizer omits matched_item and
match_score entirely when they are absent from the input, instead of setting
them to null. -/
theorem c7_counterexample :
    normalizeFieldsManually [c7cexItem] = .ok [c7cexItem] ∧
    find c7cexItem kMatchedItem = none ∧ find c7cexItem kMatchScore = none :=
  ⟨rfl, rfl, rfl⟩

/-- Witness for C7: a record carrying matched_item and match_score keeps both
through the fallback normalizer, and the router normalizer always emits both
keys. -/
theorem c7_witness :
    normalizeItem c7witItem = .ok c7witItem ∧
    (find c7witItem kMatchedItem = find c7witItem kMatchedItem ∧
      find c7witItem kMatchScore = find c7witItem kMatchScore) ∧
    (find (routerNormalizeItem c7witItem) kMatchedItem = some ((find c7witItem kMatchedItem).getD .jNull) ∧
      find (routerNormalizeItem c7witItem) kMatchScore = some ((find c7witItem kMatchScore).getD .jNull)) :=
  ⟨rfl, c7_match_keys.1 c7witItem c7witItem rfl, c7_match_keys.2 c7witItem⟩

/-- Claim C8 (confirmed): in to_csv rows the Request Item and Matched Product
text fields are wrapped in double quotes with embedded quotes doubled exactly
when the raw value contains a comma or a double quote, and are emitted bare
otherwise; the value containing a comma and a quote produces the quoted,
escaped field. -/
theorem c8_csv_quoting :
    (∀ s : String, ((s.data.contains ',' || s.data.contains '"') = true →
        csvEscape s = dq ++ doubleQuotes s ++ dq) ∧
      ((s.data.contains ',' || s.data.contains '"') = false → csvEscape s = s)) ∧
    (∀ item s m, find item kRequestItem = some (.jStr s) → find item kMatchedItem = some (.jStr m) →
      ∃ t, csvRow item = csvEscape s ++ "," ++ csvEscape m ++ "," ++ t) ∧
    csvEscape ("Brass, 1\"") = ("\"Brass, 1\"\"\"") := by
  refine ⟨?_, ?_, ?_⟩
  · intro s
    constructor <;> intro h
    · unfold csvEscape
      rw [if_pos h]
    · unfold csvEscape
      rw [if_neg (by simp at h; simp [h])]
  · intro item s m hs hm
    refine ⟨qtyCell item ++ "," ++ upCell item ++ "," ++ totCell item ++ "\n", ?_⟩
    unfold csvRow
    have h1 : textCell item kRequestItem = s := by simp [textCell, getNonNull, hs, pyStr]
    have h2 : textCell item kMatchedItem = m := by simp [textCell, getNonNull, hm, pyStr]
    rw [h1, h2]
    simp [String.append_assoc]
  · rfl

/-- Witness for C8: the spec's example value contains a comma and a quote, so
its CSV field is quoted with the embedded quote doubled, and the row of a
line item carrying it starts with the two escaped text fields. -/
theorem c8_witness :
    ((("Brass, 1\"").data.contains ',' || ("Brass, 1\"").data.contains '"') = true ∧
      csvEscape ("Brass, 1\"") = dq ++ doubleQuotes ("Brass, 1\"") ++ dq) ∧
    (find c8item kRequestItem = some (.jStr ("Brass, 1\"")) ∧
      ∃ t, csvRow c8item = csvEscape ("Brass, 1\"") ++ "," ++ csvEscape ("Brass Pipe") ++ "," ++ t) :=
  ⟨⟨rfl, (c8_csv_quoting.1 ("Brass, 1\"")).1 rfl⟩,
   ⟨rfl, c8_csv_quoting.2.1 c8item ("Brass, 1\"") ("Brass Pipe") rfl rfl⟩⟩

/-! Order-store lemmas. -/

theorem get_skips (st : List Record) (id : String)
    (h : ∀ o ∈ st, ∃ v, find o kId = some v ∧ v ≠ JVal.jStr id) (tail : List Record) :
    getSalesOrderById (st ++ tail) id = getSalesOrderById tail id := by
  induction st with
  | nil => rfl
  | cons o rest ih =>
    obtain ⟨v, hv, hne⟩ := h o (by simp)
    have hrest : ∀ o' ∈ rest, ∃ v, find o' kId = some v ∧ v ≠ JVal.jStr id :=
      fun o' ho' => h o' (List.mem_cons_of_mem _ ho')
    cases v with
    | jStr s =>
      have hs : ¬ (s = id) := fun hh => hne (by rw [hh])
      simpa [getSalesOrderById, hv, hs] using ih hrest
    | jNum q => simpa [getSalesOrderById, hv] using ih hrest
    | jNull => simpa [getSalesOrderById, hv] using ih hrest
    | jTime t => simpa [getSalesOrderById, hv] using ih hrest
    | jArr xs => simpa [getSalesOrderById, hv] using ih hrest
    | jObj fs => simpa [getSalesOrderById, hv] using ih hrest

/-- Claim C4 (amended): create appends an order with the given fresh id,
status "pending", the given file name and line items, and created_at and
updated_at taken from the two successive clock reads; an immediate get by the
new id returns exactly the stored record, whose created_at equals updated_at
whenever the two clock reads coincide. -/
theorem c4_create_get (st : List Record) (newId : String) (t1 t2 : Nat) (fn : String) (items : List Record)
    (hfresh : ∀ o ∈ st, ∃ v, find o kId = some v ∧ v ≠ JVal.jStr newId) :
    getSalesOrderById (createSalesOrder st newId t1 t2 fn items).2 newId = .ok (some (createSalesOrder st newId t1 t2 fn items).1) ∧
    find (createSalesOrder st newId t1 t2 fn items).1 kFileName = some (.jStr fn) ∧
    find (createSalesOrder st newId t1 t2 fn items).1 kLineItems = some (.jArr (items.map JVal.jObj)) ∧
    find (createSalesOrder st newId t1 t2 fn items).1 kStatus = some (.jStr ("pending")) ∧
    find (createSalesOrder st newId t1 t2 fn items).1 kCreatedAt = some (.jTime t1) ∧
    find (createSalesOrder st newId t1 t2 fn items).1 kUpdatedAt = some (.jTime t2) ∧
    (t1 = t2 → find (createSalesOrder st newId t1 t2 fn items).1 kCreatedAt = find (createSalesOrder st newId t1 t2 fn items).1 kUpdatedAt) := by
  refine ⟨?_, rfl, rfl, rfl, rfl, rfl, ?_⟩
  · have hst : (createSalesOrder st newId t1 t2 fn items).2 = st ++ [(createSalesOrder st newId t1 t2 fn items).1] := rfl
    rw [hst, get_skips st newId hfresh]
    have hid : find (createSalesOrder st newId t1 t2 fn items).1 kId = some (.jStr newId) := rfl
    simp [getSalesOrderById, hid]
  · intro h
    subst h
    rfl

/-- Claim C4 counterexample: with distinct clock reads for the two
`datetime.now()` calls in create, the stored order that get returns has
created_at different from updated_at, refuting the claimed equality. -/
theorem c4_counterexample :
    getSalesOrderById (createSalesOrder [] ("id-1") 0 1 ("a.pdf") []).2 ("id-1") = .ok (some (createSalesOrder [] ("id-1") 0 1 ("a.pdf") []).1) ∧
    find (createSalesOrder [] ("id-1") 0 1 ("a.pdf") []).1 kCreatedAt = some (.jTime 0) ∧
    find (createSalesOrder [] ("id-1") 0 1 ("a.pdf") []).1 kUpdatedAt = some (.jTime 1) ∧
    find (createSalesOrder [] ("id-1") 0 1 ("a.pdf") []).1 kCreatedAt ≠ find (createSalesOrder [] ("id-1") 0 1 ("a.pdf") []).1 kUpdatedAt := by
  refine ⟨rfl, rfl, rfl, ?_⟩
  intro h
  have h' : some (JVal.jTime 0) = some (JVal.jTime 1) := h
  have h2 := Option.some.inj h'
  injection h2 with h3
  exact absurd h3 (by decide)

/-- Witness for C4: creating into an empty store with both clock reads at
tick 7 and reading the order back. -/
theorem c4_witness :
    (∀ o ∈ ([] : List Record), ∃ v, find o kId = some v ∧ v ≠ JVal.jStr ("id-9")) ∧
    (getSalesOrderById (createSalesOrder [] ("id-9") 7 7 ("b.pdf") [[(kRequestItem, .jStr ("Bolt"))]]).2 ("id-9") = .ok (some (createSalesOrder [] ("id-9") 7 7 ("b.pdf") [[(kRequestItem, .jStr ("Bolt"))]]).1) ∧
      find (createSalesOrder [] ("id-9") 7 7 ("b.pdf") [[(kRequestItem, .jStr ("Bolt"))]]).1 kFileName = some (.jStr ("b.pdf")) ∧
      find (createSalesOrder [] ("id-9") 7 7 ("b.pdf") [[(kRequestItem, .jStr ("Bolt"))]]).1 kLineItems = some (.jArr ([[(kRequestItem, .jStr ("Bolt"))]].map JVal.jObj)) ∧
      find (createSalesOrder [] ("id-9") 7 7 ("b.pdf") [[(kRequestItem, .jStr ("Bolt"))]]).1 kStatus = some (.jStr ("pending")) ∧
      find (createSalesOrder [] ("id-9") 7 7 ("b.pdf") [[(kRequestItem, .jStr ("Bolt"))]]).1 kCreatedAt = some (.jTime 7) ∧
      find (createSalesOrder [] ("id-9") 7 7 ("b.pdf") [[(kRequestItem, .jStr ("Bolt"))]]).1 kUpdatedAt = some (.jTime 7) ∧
      ((7 : Nat) = 7 → find (createSalesOrder [] ("id-9") 7 7 ("b.pdf") [[(kRequestItem, .jStr ("Bolt"))]]).1 kCreatedAt = find (createSalesOrder [] ("id-9") 7 7 ("b.pdf") [[(kRequestItem, .jStr ("Bolt"))]]).1 kUpdatedAt)) :=
  ⟨fun o ho => absurd ho (by simp),
   c4_create_get [] ("id-9") 7 7 ("b.pdf") [[(kRequestItem, .jStr ("Bolt"))]] (fun o ho => absurd ho (by simp))⟩

theorem setItemKeys_obj (upd : List (String × JVal)) : ∀ fields : List (String × JVal),
    setItemKeys (.jObj fields) upd = .ok (.jObj (applyUpdates fields upd)) := by
  induction upd with
  | nil => intro fields; rfl
  | cons kv rest ih =>
    intro fields
    show setItemKeys (.jObj (setKey fields kv.1 kv.2)) rest = _
    rw [ih (setKey fields kv.1 kv.2)]
    rfl

theorem uli_skips (pre : List Record) (id : String) (idx : Int) (upd : List (String × JVal)) (now : Nat)
    (hpre : ∀ o' ∈ pre, ∃ v, find o' kId = some v ∧ v ≠ JVal.jStr id) (tail : List Record) :
    updateLineItem (pre ++ tail) id idx upd now =
      match updateLineItem tail id idx upd now with
      | .ok p => .ok (p.1, pre ++ p.2)
      | .error e => .error e := by
  induction pre with
  | nil => cases h : updateLineItem tail id idx upd now <;> simp [h]
  | cons o rest ih =>
    obtain ⟨v, hv, hne⟩ := hpre o (by simp)
    have hrest : ∀ o' ∈ rest, ∃ v, find o' kId = some v ∧ v ≠ JVal.jStr id :=
      fun o' ho' => hpre o' (List.mem_cons_of_mem _ ho')
    have hih := ih hrest
    cases v with
    | jStr s =>
      have hs : ¬ (s = id) := fun hh => hne (by rw [hh])
      show updateLineItem (o :: (rest ++ tail)) id idx upd now = _
      simp only [updateLineItem, hv, hs, if_false]
      rw [hih]
      cases h : updateLineItem tail id idx upd now <;> simp [h]
    | jNum q =>
      show updateLineItem (o :: (rest ++ tail)) id idx upd now = _
      simp only [updateLineItem, hv]
      rw [hih]
      cases h : updateLineItem tail id idx upd now <;> simp [h]
    | jNull =>
      show updateLineItem (o :: (rest ++ tail)) id idx upd now = _
      simp only [updateLineItem, hv]
      rw [hih]
      cases h : updateLineItem tail id idx upd now <;> simp [h]
    | jTime t =>
      show updateLineItem (o :: (rest ++ tail)) id idx upd now = _
      simp only [updateLineItem, hv]
      rw [hih]
      cases h : updateLineItem tail id idx upd now <;> simp [h]
    | jArr xs =>
      show updateLineItem (o :: (rest ++ tail)) id idx upd now = _
      simp only [updateLineItem, hv]
      rw [hih]
      cases h : updateLineItem tail id idx upd now <;> simp [h]
    | jObj fs =>
      show updateLineItem (o :: (rest ++ tail)) id idx upd now = _
      simp only [updateLineItem, hv]
      rw [hih]
      cases h : updateLineItem tail id idx upd now <;> simp [h]

theorem uli_head_invalid (o : Record) (post : List Record) (id : String) (idx : Int)
    (upd : List (String × JVal)) (now : Nat) (xs : List JVal)
    (ho : find o kId = some (.jStr id)) (hli : find o kLineItems = some (.jArr xs))
    (hidx : idx < 0 ∨ (xs.length : Int) ≤ idx) :
    updateLineItem (o :: post) id idx upd now = .error .invalidIndex := by
  rcases hidx with h | h
  · simp [updateLineItem, ho, hli, h]
  · have h' : ¬ idx < 0 := by omega
    simp [updateLineItem, ho, hli, h, h']

theorem uli_head_valid (o : Record) (post : List Record) (id : String) (idx : Int)
    (upd : List (String × JVal)) (now : Nat) (xs : List JVal) (fields : List (String × JVal))
    (ho : find o kId = some (.jStr id)) (hli : find o kLineItems = some (.jArr xs))
    (h0 : 0 ≤ idx) (hlen : idx < (xs.length : Int)) (helem : xs.get? idx.toNat = some (.jObj fields)) :
    updateLineItem (o :: post) id idx upd now =
      .ok (setKey (setKey o kLineItems (.jArr (xs.set idx.toNat (.jObj (applyUpdates fields upd))))) kUpdatedAt (.jTime now),
        setKey (setKey o kLineItems (.jArr (xs.set idx.toNat (.jObj (applyUpdates fields upd))))) kUpdatedAt (.jTime now) :: post) := by
  have h1 : ¬ idx < 0 := by omega
  have h2 : ¬ ((xs.length : Int) ≤ idx) := by omega
  have helem' : xs[idx.toNat]? = some (.jObj fields) := by
    rw [← List.get?_eq_getElem?]; exact helem
  simp [updateLineItem, ho, hli, h1, h2, helem', setItemKeys_obj]

/-- Claim C5 (confirmed): on the stored order with the given id,
update_line_item with an out-of-range index (negative or at least the number
of line items) fails with InvalidIndex and leaves the stored collection
unchanged; with an in-range index it merges the given fields into that one
line item only, sets updated_at from the clock, and returns the full updated
order. -/
theorem c5_update_line_item :
    (∀ (pre : List Record) (o : Record) (post : List Record) (id : String) (idx : Int)
      (upd : List (String × JVal)) (now : Nat) (xs : List JVal),
      (∀ o' ∈ pre, ∃ v, find o' kId = some v ∧ v ≠ JVal.jStr id) →
      find o kId = some (.jStr id) → find o kLineItems = some (.jArr xs) →
      (idx < 0 ∨ (xs.length : Int) ≤ idx) →
      updateLineItem (pre ++ o :: post) id idx upd now = .error .invalidIndex ∧
      updateLineItemState (pre ++ o :: post) id idx upd now = pre ++ o :: post) ∧
    (∀ (pre : List Record) (o : Record) (post : List Record) (id : String) (idx : Int)
      (upd : List (String × JVal)) (now : Nat) (xs : List JVal) (fields : List (String × JVal)),
      (∀ o' ∈ pre, ∃ v, find o' kId = some v ∧ v ≠ JVal.jStr id) →
      find o kId = some (.jStr id) → find o kLineItems = some (.jArr xs) →
      0 ≤ idx → idx < (xs.length : Int) → xs.get? idx.toNat = some (.jObj fields) →
      updateLineItem (pre ++ o :: post) id idx upd now =
        .ok (setKey (setKey o kLineItems (.jArr (xs.set idx.toNat (.jObj (applyUpdates fields upd))))) kUpdatedAt (.jTime now),
          pre ++ setKey (setKey o kLineItems (.jArr (xs.set idx.toNat (.jObj (applyUpdates fields upd))))) kUpdatedAt (.jTime now) :: post)) := by
  constructor
  · intro pre o post id idx upd now xs hpre ho hli hidx
    have h1 : updateLineItem (pre ++ o :: post) id idx upd now = .error .invalidIndex := by
      rw [uli_skips pre id idx upd now hpre (o :: post), uli_head_invalid o post id idx upd now xs ho hli hidx]
    refine ⟨h1, ?_⟩
    unfold updateLineItemState
    rw [h1]
  · intro pre o post id idx upd now xs fields hpre ho hli h0 hlen helem
    rw [uli_skips pre id idx upd now hpre (o :: post),
      uli_head_valid o post id idx upd now xs fields ho hli h0 hlen helem]

/-- Witness for C5: a one-order store whose single line item list has length
one; index 1 fails with InvalidIndex leaving the store unchanged, index 0
merges Quantity 7 into the only line item and bumps updated_at to tick 5. -/
theorem c5_witness :
    ((∀ o' ∈ ([] : List Record), ∃ v, find o' kId = some v ∧ v ≠ JVal.jStr ("a")) ∧
      find c5order kId = some (.jStr ("a")) ∧
      find c5order kLineItems = some (.jArr [.jObj [(kQuantity, .jNum 1)]]) ∧
      ((1 : Int) < 0 ∨ (([JVal.jObj [(kQuantity, .jNum 1)]].length : Int) ≤ 1)) ∧
      updateLineItem ([] ++ c5order :: []) ("a") 1 [] 5 = .error .invalidIndex ∧
      updateLineItemState ([] ++ c5order :: []) ("a") 1 [] 5 = [] ++ c5order :: []) ∧
    updateLineItem ([] ++ c5order :: []) ("a") 0 [(kQuantity, .jNum 7)] 5 =
      .ok (setKey (setKey c5order kLineItems (.jArr ([JVal.jObj [(kQuantity, .jNum 1)]].set (Int.toNat 0) (.jObj (applyUpdates [(kQuantity, .jNum 1)] [(kQuantity, .jNum 7)]))))) kUpdatedAt (.jTime 5),
        [] ++ setKey (setKey c5order kLineItems (.jArr ([JVal.jObj [(kQuantity, .jNum 1)]].set (Int.toNat 0) (.jObj (applyUpdates [(kQuantity, .jNum 1)] [(kQuantity, .jNum 7)]))))) kUpdatedAt (.jTime 5) :: []) :=
  ⟨⟨fun o ho => absurd ho (by simp), rfl, rfl, by decide,
    (c5_update_line_item.1 [] c5order [] ("a") 1 [] 5 [.jObj [(kQuantity, .jNum 1)]]
      (fun o ho => absurd ho (by simp)) rfl rfl (by decide)).1,
    (c5_update_line_item.1 [] c5order [] ("a") 1 [] 5 [.jObj [(kQuantity, .jNum 1)]]
      (fun o ho => absurd ho (by simp)) rfl rfl (by decide)).2⟩,
   c5_update_line_item.2 [] c5order [] ("a") 0 [(kQuantity, .jNum 7)] 5 [.jObj [(kQuantity, .jNum 1)]]
     [(kQuantity, .jNum 1)] (fun o ho => absurd ho (by simp)) rfl rfl (by decide) (by decide) rfl⟩

theorem uso_ids (id : String) (upd : List (String × JVal)) (now : Nat) (hupd : find upd kId = none) :
    ∀ (st : List Record) (p : Record × List Record), updateSalesOrder st id upd now = .ok p →
      List.map (fun o => find o kId) p.2 = List.map (fun o => find o kId) st := by
  intro st
  induction st with
  | nil => intro p h; simp [updateSalesOrder] at h
  | cons o rest ih =>
    intro p h
    cases hv : find o kId with
    | none => simp [updateSalesOrder, hv] at h
    | some v =>
      have hkeep : find (setKey (applyUpdates o upd) kUpdatedAt (.jTime now)) kId = find o kId := by
        rw [find_setKey_ne _ _ (by decide : kId ≠ kUpdatedAt)]
        exact find_applyUpdates_ne upd o hupd
      cases v with
      | jStr s =>
        by_cases hs : s = id
        · simp only [updateSalesOrder, hv, hs, eq_self_iff_true, if_true, Except.ok.injEq] at h
          subst h
          simp [hkeep, hv]
        · simp only [updateSalesOrder, hv, hs, if_false] at h
          cases hrec : updateSalesOrder rest id upd now with
          | error e => rw [hrec] at h; simp at h
          | ok p' =>
            rw [hrec] at h
            simp only [Except.ok.injEq] at h
            subst h
            simp [ih p' hrec]
      | jNum q =>
        simp only [updateSalesOrder, hv] at h
        cases hrec : updateSalesOrder rest id upd now with
        | error e => rw [hrec] at h; simp at h
        | ok p' =>
          rw [hrec] at h
          simp only [Except.ok.injEq] at h
          subst h
          simp [ih p' hrec]
      | jNull =>
        simp only [updateSalesOrder, hv] at h
        cases hrec : updateSalesOrder rest id upd now with
        | error e => rw [hrec] at h; simp at h
        | ok p' =>
          rw [hrec] at h
          simp only [Except.ok.injEq] at h
          subst h
          simp [ih p' hrec]
      | jTime t =>
        simp only [updateSalesOrder, hv] at h
        cases hrec : updateSalesOrder rest id upd now with
        | error e => rw [hrec] at h; simp at h
        | ok p' =>
          rw [hrec] at h
          simp only [Except.ok.injEq] at h
          subst h
          simp [ih p' hrec]
      | jArr xs =>
        simp only [updateSalesOrder, hv] at h
        cases hrec : updateSalesOrder rest id upd now with
        | error e => rw [hrec] at h; simp at h
        | ok p' =>
          rw [hrec] at h
          simp only [Except.ok.injEq] at h
          subst h
          simp [ih p' hrec]
      | jObj fs =>
        simp only [updateSalesOrder, hv] at h
        cases hrec : updateSalesOrder rest id upd now with
        | error e => rw [hrec] at h; simp at h
        | ok p' =>
          rw [hrec] at h
          simp only [Except.ok.injEq] at h
          subst h
          simp [ih p' hrec]

theorem uli_cons_other (o : Record) (rest : List Record) (id : String) (idx : Int)
    (upd : List (String × JVal)) (now : Nat) (v : JVal)
    (hv : find o kId = some v) (hno : ∀ s, v = JVal.jStr s → ¬ (s = id)) :
    updateLineItem (o :: rest) id idx upd now =
      match updateLineItem rest id idx upd now with
      | .ok p => .ok (p.1, o :: p.2)
      | .error e => .error e := by
  cases v with
  | jStr s => simp [updateLineItem, hv, hno s rfl]
  | jNum q => simp [updateLineItem, hv]
  | jNull => simp [updateLineItem, hv]
  | jTime t => simp [updateLineItem, hv]
  | jArr xs => simp [updateLineItem, hv]
  | jObj fs => simp [updateLineItem, hv]

theorem del_cons_other (o : Record) (rest : List Record) (j : String) (v : JVal)
    (hv : find o kId = some v) (hno : ∀ s, v = JVal.jStr s → ¬ (s = j)) :
    deleteSalesOrder (o :: rest) j =
      match deleteSalesOrder rest j with
      | .ok p => .ok (p.1, o :: p.2)
      | .error e => .error e := by
  cases v with
  | jStr s => simp [deleteSalesOrder, hv, hno s rfl]
  | jNum q => simp [deleteSalesOrder, hv]
  | jNull => simp [deleteSalesOrder, hv]
  | jTime t => simp [deleteSalesOrder, hv]
  | jArr xs => simp [deleteSalesOrder, hv]
  | jObj fs => simp [deleteSalesOrder, hv]

theorem uli_ids (id : String) (idx : Int) (upd : List (String × JVal)) (now : Nat) :
    ∀ (st : List Record) (p : Record × List Record), updateLineItem st id idx upd now = .ok p →
      List.map (fun o => find o kId) p.2 = List.map (fun o => find o kId) st := by
  intro st
  induction st with
  | nil => intro p h; simp [updateLineItem] at h
  | cons o rest ih =>
    intro p h
    cases hv : find o kId with
    | none => simp [updateLineItem, hv] at h
    | some v =>
      by_cases hmatch : ∃ s, v = JVal.jStr s ∧ s = id
      · obtain ⟨s, rfl, rfl⟩ := hmatch
        simp only [updateLineItem, hv, eq_self_iff_true, if_true] at h
        by_cases hneg : idx < 0
        · simp [hneg] at h
        · simp only [hneg, if_false] at h
          cases hli : find o kLineItems with
          | none => rw [hli] at h; simp at h
          | some w =>
            rw [hli] at h
            cases w with
            | jArr xs =>
              by_cases hlen : (xs.length : Int) ≤ idx
              · simp [hlen] at h
              · simp only [hlen, if_false] at h
                cases hget : xs.get? idx.toNat with
                | none => rw [hget] at h; simp at h
                | some v =>
                  simp only [hget] at h
                  cases hset : setItemKeys v upd with
                  | error e => simp only [hset] at h; simp at h
                  | ok v2 =>
                    simp only [hset, Except.ok.injEq] at h
                    subst h
                    have hkeep : find (setKey (setKey o kLineItems (.jArr (xs.set idx.toNat v2))) kUpdatedAt (.jTime now)) kId = find o kId := by
                      rw [find_setKey_ne _ _ (by decide : kId ≠ kUpdatedAt),
                        find_setKey_ne _ _ (by decide : kId ≠ kLineItems)]
                    simp [hkeep, hv]
            | jStr s2 => simp at h
            | jNum q2 => simp at h
            | jNull => simp at h
            | jTime t2 => simp at h
            | jObj f2 => simp at h
      · have hno : ∀ s, v = JVal.jStr s → ¬ (s = id) := fun s hs hid => hmatch ⟨s, hs, hid⟩
        rw [uli_cons_other o rest id idx upd now v hv hno] at h
        cases hrec : updateLineItem rest id idx upd now with
        | error e => rw [hrec] at h; simp at h
        | ok p' =>
          rw [hrec] at h
          simp only [Except.ok.injEq] at h
          subst h
          simp [ih p' hrec]

theorem del_keeps (j i : String) (hne : j ≠ i) :
    ∀ (st : List Record) (p : Bool × List Record), deleteSalesOrder st j = .ok p →
      (∃ o ∈ st, find o kId = some (.jStr i)) → ∃ o ∈ p.2, find o kId = some (.jStr i) := by
  intro st
  induction st with
  | nil => intro p h hex; simp at hex
  | cons o rest ih =>
    intro p h hex
    cases hv : find o kId with
    | none => simp [deleteSalesOrder, hv] at h
    | some v =>
      by_cases hmatch : ∃ s, v = JVal.jStr s ∧ s = j
      · obtain ⟨s, rfl, rfl⟩ := hmatch
        simp only [deleteSalesOrder, hv, eq_self_iff_true, if_true, Except.ok.injEq] at h
        subst h
        rcases hex with ⟨o', ho', hid'⟩
        rcases List.mem_cons.mp ho' with rfl | hmem
        · exfalso
          rw [hv] at hid'
          have hji := Option.some.inj hid'
          injection hji with hji2
          exact hne hji2
        · exact ⟨o', hmem, hid'⟩
      · have hno : ∀ s, v = JVal.jStr s → ¬ (s = j) := fun s hs hid => hmatch ⟨s, hs, hid⟩
        rw [del_cons_other o rest j v hv hno] at h
        cases hrec : deleteSalesOrder rest j with
        | error e => rw [hrec] at h; simp at h
        | ok p' =>
          rw [hrec] at h
          simp only [Except.ok.injEq] at h
          subst h
          rcases hex with ⟨o', ho', hid'⟩
          rcases List.mem_cons.mp ho' with rfl | hmem
          · exact ⟨o', by simp, hid'⟩
          · obtain ⟨o2, ho2, hid2⟩ := ih p' hrec ⟨o', hmem, hid'⟩
            exact ⟨o2, List.mem_cons_of_mem _ ho2, hid2⟩

theorem applyOp_keeps (st : List Record) (op : StoreOp) (i : String)
    (hop : opKeepsId i op) (hex : ∃ o ∈ st, find o kId = some (.jStr i)) :
    ∃ o ∈ applyOp st op, find o kId = some (.jStr i) := by
  cases op with
  | updOrder id upd t =>
    cases h : updateSalesOrder st id upd t with
    | error e => simpa [applyOp, h] using hex
    | ok p =>
      simp only [applyOp, h]
      have hm := uso_ids id upd t hop st p h
      obtain ⟨o, ho, hid⟩ := hex
      have hmem : some (JVal.jStr i) ∈ List.map (fun o => find o kId) p.2 := by
        rw [hm]
        exact List.mem_map.mpr ⟨o, ho, hid⟩
      obtain ⟨o', ho', hid'⟩ := List.mem_map.mp hmem
      exact ⟨o', ho', hid'⟩
  | updItem id idx upd t =>
    cases h : updateLineItem st id idx upd t with
    | error e => simpa [applyOp, updateLineItemState, h] using hex
    | ok p =>
      simp only [applyOp, updateLineItemState, h]
      have hm := uli_ids id idx upd t st p h
      obtain ⟨o, ho, hid⟩ := hex
      have hmem : some (JVal.jStr i) ∈ List.map (fun o => find o kId) p.2 := by
        rw [hm]
        exact List.mem_map.mpr ⟨o, ho, hid⟩
      obtain ⟨o', ho', hid'⟩ := List.mem_map.mp hmem
      exact ⟨o', ho', hid'⟩
  | delOrder j =>
    cases h : deleteSalesOrder st j with
    | error e => simpa [applyOp, h] using hex
    | ok p =>
      simp only [applyOp, h]
      exact del_keeps j i hop st p h hex

/-- Claim C10 (amended): across any sequence of store operations none of
which is an order-level update naming the `_id` key or a delete of this
order's id, an order stored with a given id keeps an order with exactly that
id in the collection: update merges never touch `_id` unless named,
update_line_item writes only inside one line item and `updated_at`, and
delete removes only orders whose `_id` matches the deleted id. -/
theorem c10_id_stable : ∀ (ops : List StoreOp) (st : List Record) (i : String),
    (∀ op ∈ ops, opKeepsId i op) → (∃ o ∈ st, find o kId = some (.jStr i)) →
    ∃ o ∈ applyOps st ops, find o kId = some (.jStr i) := by
  intro ops
  induction ops with
  | nil => intro st i _ hex; exact hex
  | cons op rest ih =>
    intro st i hops hex
    exact ih (applyOp st op) i (fun op' h' => hops op' (List.mem_cons_of_mem _ h'))
      (applyOp_keeps st op i (hops op (by simp)) hex)

/-- Claim C10 counterexample: update_sales_order has no guard on the `_id`
key, so an update whose partial_fields name `_id` reassigns the stored id;
afterwards the order is no longer retrievable under its creation id. -/
theorem c10_counterexample :
    updateSalesOrder c10st ("a") [(kId, .jStr ("b"))] 1 = .ok (c10cexOut, [c10cexOut]) ∧
    find c10cexOut kId = some (.jStr ("b")) ∧
    getSalesOrderById [c10cexOut] ("a") = .ok none :=
  ⟨rfl, rfl, rfl⟩

/-- Witness for C10: a store holding an order with id "a", a status update
not naming `_id` and a delete of a different id; the order with id "a"
survives. -/
theorem c10_witness :
    (∀ op ∈ c10ops, opKeepsId ("a") op) ∧ (∃ o ∈ c10st, find o kId = some (.jStr ("a"))) ∧
    (∃ o ∈ applyOps c10st c10ops, find o kId = some (.jStr ("a"))) := by
  have hops : ∀ op ∈ c10ops, opKeepsId ("a") op := by
    intro op h
    rcases List.mem_cons.mp h with rfl | h2
    · exact rfl
    · rcases List.mem_cons.mp h2 with rfl | h3
      · exact (by decide : ¬ (("zzz" : String) = ("a" : String)))
      · simp at h3
  have hex : ∃ o ∈ c10st, find o kId = some (.jStr ("a")) :=
    ⟨[(kId, .jStr ("a")), (kStatus, .jStr ("pending"))], by simp [c10st], rfl⟩
  exact ⟨hops, hex, c10_id_stable c10ops c10st ("a") hops hex⟩

/-! Second-pass analysis for idempotence. -/

theorem totalResolve_no_amount (item : Record) (hA : find item kAmount = none) :
    totalResolve item = .ok (find item kTotal) := by
  unfold totalResolve
  cases h : find item kTotal <;> simp [h, hA]

theorem normalizeItem_ok (item : Record) (tot : Option JVal) (h : totalResolve item = .ok tot) :
    normalizeItem item = .ok (normOut item tot) :=
  normalizeItem_eq item tot h

theorem normOut_banned2 (item : Record) (tot : Option JVal) {k : String} (hb : bannedExtraKey k = true) :
    find (normOut item tot) k = find (deriveUPStep (deriveTotalStep (resolvedRecord item tot))) k :=
  find_addExtras_banned item _ hb

theorem normOut_nonbanned (item : Record) (tot : Option JVal) {k : String} (hb : bannedExtraKey k = false) :
    find (normOut item tot) k = find item k :=
  find_out_nonbanned item tot hb

theorem deriv_nonbanned (item : Record) (tot : Option JVal) {k : String} (hb : bannedExtraKey k = false) :
    find (deriveUPStep (deriveTotalStep (resolvedRecord item tot))) k = none := by
  obtain ⟨h2, h3, h4, h1⟩ := (banned_false_iff k).mp hb
  rw [find_dup_ne _ h3, find_dts_ne _ h4]
  exact find_rr_other item tot h1 h2 h3 h4

theorem resolveRI_none (item : Record) (h : resolveRI item = none) :
    find item kRequestItem = none ∧ find item kItemDescription = none ∧ find item kDescription = none := by
  unfold resolveRI at h
  cases h1 : find item kRequestItem with
  | some v => simp [h1] at h
  | none =>
    simp only [h1] at h
    cases h2 : find item kItemDescription with
    | some v => simp [h2] at h
    | none =>
      simp only [h2] at h
      exact ⟨rfl, rfl, h⟩

theorem resolvedQty_none (item : Record) (h : resolvedQty item = none) :
    find item kQuantity = none ∧ find item kQty = none := by
  unfold resolvedQty at h
  cases h1 : find item kQuantity with
  | some v => simp [h1] at h
  | none =>
    simp only [h1] at h
    exact ⟨rfl, h⟩

theorem resolvedUP_none (item : Record) (h : resolvedUP item = none) :
    find item kUnitPrice = none ∧ find item kPrice = none ∧ find item kUnitCost = none := by
  unfold resolvedUP at h
  cases h1 : find item kUnitPrice with
  | some v => simp [h1] at h
  | none =>
    simp only [h1] at h
    cases h2 : find item kPrice with
    | some v => simp [h2] at h
    | none =>
      simp only [h2] at h
      exact ⟨rfl, rfl, h⟩

theorem normOut_resolveRI (item : Record) (tot : Option JVal) :
    resolveRI (normOut item tot) = resolveRI item := by
  have hri : find (normOut item tot) kRequestItem = resolveRI item := find_out_ri item tot
  cases hcase : resolveRI item with
  | some v =>
    rw [hcase] at hri
    unfold resolveRI
    simp [hri]
  | none =>
    obtain ⟨n1, n2, n3⟩ := resolveRI_none item hcase
    rw [hcase] at hri
    have hid : find (normOut item tot) kItemDescription = find item kItemDescription :=
      normOut_nonbanned item tot (by decide)
    have hde : find (normOut item tot) kDescription = find item kDescription :=
      normOut_nonbanned item tot (by decide)
    unfold resolveRI
    simp [hri, hid, n2, hde, n3]

theorem normOut_resolvedQty (item : Record) (tot : Option JVal) :
    resolvedQty (normOut item tot) = resolvedQty item := by
  have hq : find (normOut item tot) kQuantity = resolvedQty item := find_out_qty item tot
  cases hcase : resolvedQty item with
  | some v =>
    rw [hcase] at hq
    unfold resolvedQty
    simp [hq]
  | none =>
    obtain ⟨n1, n2⟩ := resolvedQty_none item hcase
    rw [hcase] at hq
    have hqty : find (normOut item tot) kQty = find item kQty := normOut_nonbanned item tot (by decide)
    unfold resolvedQty
    simp [hq, hqty, n2]

theorem normOut_resolvedUP (item : Record) (tot : Option JVal) :
    resolvedUP (normOut item tot) = find (deriveUPStep (deriveTotalStep (resolvedRecord item tot))) kUnitPrice := by
  have hup : find (normOut item tot) kUnitPrice = find (deriveUPStep (deriveTotalStep (resolvedRecord item tot))) kUnitPrice :=
    normOut_banned2 item tot (by decide)
  cases hcase : find (deriveUPStep (deriveTotalStep (resolvedRecord item tot))) kUnitPrice with
  | some v =>
    rw [hcase] at hup
    unfold resolvedUP
    simp [hup]
  | none =>
    obtain ⟨hd, hup0⟩ := dup_of_up_none _ hcase
    rw [find_dts_ne _ (by decide : kUnitPrice ≠ kTotal)] at hup0
    have hru : resolvedUP item = none := by rw [← find_rr_up item tot]; exact hup0
    obtain ⟨m1, m2, m3⟩ := resolvedUP_none item hru
    rw [hcase] at hup
    have hpr : find (normOut item tot) kPrice = find item kPrice := normOut_nonbanned item tot (by decide)
    have huc : find (normOut item tot) kUnitCost = find item kUnitCost := normOut_nonbanned item tot (by decide)
    unfold resolvedUP
    simp [hup, hpr, m2, huc, m3]

theorem normOut_eq_addExtras (a : Record) (t : Option JVal) :
    normOut a t = addExtras a (deriveUPStep (deriveTotalStep (resolvedRecord a t))) := rfl

theorem normalizeItem_idem (item out : Record) (hA : find item kAmount = none)
    (h : normalizeItem item = .ok out) :
    ∃ out2, normalizeItem out = .ok out2 ∧ ∀ k, find out2 k = find out k := by
  have htr : totalResolve item = .ok (find item kTotal) := totalResolve_no_amount item hA
  rw [normalizeItem_ok item _ htr] at h
  injection h with h'
  subst h'
  have hAmountOut : find (normOut item (find item kTotal)) kAmount = none := by
    rw [normOut_nonbanned item _ (by decide)]
    exact hA
  have htr2 : totalResolve (normOut item (find item kTotal)) = .ok (find (normOut item (find item kTotal)) kTotal) :=
    totalResolve_no_amount _ hAmountOut
  have hEq : ∀ c, find (resolvedRecord (normOut item (find item kTotal)) (find (normOut item (find item kTotal)) kTotal)) c
      = find (deriveUPStep (deriveTotalStep (resolvedRecord item (find item kTotal)))) c := by
    intro c
    by_cases hc1 : c = kRequestItem
    · subst hc1
      rw [find_rr_ri, normOut_resolveRI,
        find_dup_ne _ (by decide : kRequestItem ≠ kUnitPrice),
        find_dts_ne _ (by decide : kRequestItem ≠ kTotal), find_rr_ri]
    · by_cases hc2 : c = kQuantity
      · subst hc2
        rw [find_rr_qty, normOut_resolvedQty,
          find_dup_ne _ (by decide : kQuantity ≠ kUnitPrice),
          find_dts_ne _ (by decide : kQuantity ≠ kTotal), find_rr_qty]
      · by_cases hc3 : c = kUnitPrice
        · subst hc3
          rw [find_rr_up, normOut_resolvedUP]
        · by_cases hc4 : c = kTotal
          · subst hc4
            rw [find_rr_total, normOut_banned2 item _ (by decide : bannedExtraKey kTotal = true)]
          · have hb : bannedExtraKey c = false := (banned_false_iff c).mpr ⟨hc2, hc3, hc4, hc1⟩
            rw [deriv_nonbanned item _ hb]
            exact find_rr_other _ _ hc1 hc2 hc3 hc4
  have hdts2 : deriveTotalStep (resolvedRecord (normOut item (find item kTotal)) (find (normOut item (find item kTotal)) kTotal))
      = resolvedRecord (normOut item (find item kTotal)) (find (normOut item (find item kTotal)) kTotal) := by
    rcases dts_eq_self_or (resolvedRecord (normOut item (find item kTotal)) (find (normOut item (find item kTotal)) kTotal)) with he | ⟨qv, uv, x, y, h1, h2, h3, h4, h5, he⟩
    · exact he
    · exfalso
      rw [hEq kTotal] at h1
      rw [hEq kQuantity] at h2
      rw [hEq kUnitPrice] at h3
      have hDt : find (deriveTotalStep (resolvedRecord item (find item kTotal))) kTotal = none := by
        rw [← find_dup_ne (deriveTotalStep (resolvedRecord item (find item kTotal))) (by decide : kTotal ≠ kUnitPrice)]
        exact h1
      obtain ⟨hdts1, hrt1⟩ := dts_of_total_none _ hDt
      rw [hdts1] at h2 h3
      have hdup1 : deriveUPStep (resolvedRecord item (find item kTotal)) = resolvedRecord item (find item kTotal) := by
        rcases dup_eq_self_or (resolvedRecord item (find item kTotal)) with he' | ⟨qv', tv', x', y', hu', hq', ht', _, _, _, he'⟩
        · exact he'
        · rw [hrt1] at ht'
          simp at ht'
      rw [hdup1] at h2 h3
      have hfire : deriveTotalStep (resolvedRecord item (find item kTotal)) = resolvedRecord item (find item kTotal) ++ [(kTotal, .jNum (x * y))] := by
        unfold deriveTotalStep
        simp [hrt1, h2, h3, h4, h5]
      rw [hdts1] at hfire
      exact list_ne_append_single _ _ hfire
  have hdup2 : deriveUPStep (resolvedRecord (normOut item (find item kTotal)) (find (normOut item (find item kTotal)) kTotal))
      = resolvedRecord (normOut item (find item kTotal)) (find (normOut item (find item kTotal)) kTotal) := by
    rcases dup_eq_self_or (resolvedRecord (normOut item (find item kTotal)) (find (normOut item (find item kTotal)) kTotal)) with he | ⟨qv, tv, x, y, h1, h2, h3, h4, h5, h6, he⟩
    · exact he
    · exfalso
      rw [hEq kUnitPrice] at h1
      rw [hEq kQuantity] at h2
      rw [hEq kTotal] at h3
      obtain ⟨hdup1, hupd⟩ := dup_of_up_none _ h1
      rw [hdup1] at h2 h3
      have hfire : deriveUPStep (deriveTotalStep (resolvedRecord item (find item kTotal))) = deriveTotalStep (resolvedRecord item (find item kTotal)) ++ [(kUnitPrice, .jNum (y / x))] := by
        unfold deriveUPStep
        simp [hupd, h2, h3, h4, h5, h6]
      rw [hdup1] at hfire
      exact list_ne_append_single _ _ hfire
  refine ⟨normOut (normOut item (find item kTotal)) (find (normOut item (find item kTotal)) kTotal),
    normalizeItem_ok _ _ htr2, ?_⟩
  intro k
  rw [normOut_eq_addExtras (normOut item (find item kTotal)) (find (normOut item (find item kTotal)) kTotal),
    hdts2, hdup2, find_addExtras, hEq k]
  by_cases hb : bannedExtraKey k = true
  · rw [normOut_banned2 item _ hb]
    cases hD : find (deriveUPStep (deriveTotalStep (resolvedRecord item (find item kTotal)))) k with
    | some v => simp [hD]
    | none => simp [hD, hb]
  · have hb' : bannedExtraKey k = false := by simpa using hb
    rw [deriv_nonbanned item _ hb']
    simp [hb']

/-- Claim C9 (amended): on sequences of raw records none of which contains
the key "Amount", normalize is idempotent: normalize of a successful
normalize output succeeds and returns records with exactly the same
key-value mappings, one-to-one in order. (A record carrying "Amount" can
have the Amount-as-Total heuristic and the derivations fire only on the
second pass, because the first pass materializes a "Quantity" key while
passing "Amount" through.) -/
theorem c9_normalize_idempotent : ∀ (items outs : List Record),
    (∀ item ∈ items, find item kAmount = none) →
    normalizeFieldsManually items = .ok outs →
    ∃ outs2, normalizeFieldsManually outs = .ok outs2 ∧
      List.Forall₂ (fun a b => ∀ k, find a k = find b k) outs2 outs := by
  intro items
  induction items with
  | nil =>
    intro outs _ h
    injection h with h'
    subst h'
    exact ⟨[], rfl, List.Forall₂.nil⟩
  | cons item rest ih =>
    intro outs hA h
    cases h1 : normalizeItem item with
    | error e => simp only [normalizeFieldsManually, h1] at h; simp at h
    | ok o =>
      simp only [normalizeFieldsManually, h1] at h
      cases h2 : normalizeFieldsManually rest with
      | error e => simp only [h2] at h; simp at h
      | ok os =>
        simp only [h2, Except.ok.injEq] at h
        subst h
        obtain ⟨o2, ho2, heq⟩ := normalizeItem_idem item o (hA item (by simp)) h1
        obtain ⟨os2, hos2, hall⟩ := ih os (fun it hit => hA it (List.mem_cons_of_mem _ hit)) h2
        refine ⟨o2 :: os2, ?_, List.Forall₂.cons heq hall⟩
        simp only [normalizeFieldsManually, ho2, hos2]

/-- Claim C9 counterexample: normalizing the record with keys Qty and Amount
once yields a record with no Total; normalizing that output again adds
Total = 25 via the Amount-as-Total heuristic, so normalize twice differs
from normalize once. -/
theorem c9_counterexample :
    normalizeFieldsManually [c9cexItem] = .ok [c9cexOut1] ∧
    normalizeFieldsManually [c9cexOut1] = .ok [c9cexOut2] ∧
    find c9cexOut1 kTotal = none ∧ find c9cexOut2 kTotal = some (.jNum 25) :=
  ⟨rfl, rfl, rfl, rfl⟩

/-- Witness for C9: an Amount-free record; re-normalizing its normalized
form reproduces the same record. -/
theorem c9_witness :
    (∀ item ∈ c9witItems, find item kAmount = none) ∧
    normalizeFieldsManually c9witItems = .ok [[(kRequestItem, .jStr ("Widget")), (kQuantity, .jNum 2)]] ∧
    (∃ outs2, normalizeFieldsManually [[(kRequestItem, .jStr ("Widget")), (kQuantity, .jNum 2)]] = .ok outs2 ∧
      List.Forall₂ (fun a b => ∀ k, find a k = find b k) outs2 [[(kRequestItem, .jStr ("Widget")), (kQuantity, .jNum 2)]]) := by
  have hA : ∀ item ∈ c9witItems, find item kAmount = none := by
    intro item h
    simp only [c9witItems, List.mem_singleton] at h
    subst h
    rfl
  exact ⟨hA, rfl, c9_normalize_idempotent c9witItems _ hA rfl⟩
